import Mathlib

/-!
# Cross-chain tracing pipeline — shallow embedding

This file embeds the cross-chain transaction tracing pipeline of the
`agoric-dev-mcp` server (the four step handlers under
`src/tools/cross-chain-tracing`, their helpers, and the shared retrying HTTP
client in `src/utils/api-client.ts`) as executable Lean definitions, and proves
properties of the embedded code.

Modelling conventions:
- JSON payloads coming from the external providers are modelled as typed
  structures whose fields are `Option`-valued where the JavaScript code
  tolerates a missing (`undefined`) field.
- Outbound HTTP calls are modelled by passing the response (or an oracle
  mapping the request to a response) as an explicit argument; `none` models a
  request for which the shared client exhausted its retries and returned
  `null`.
- JavaScript builtins used by the code are embedded explicitly: `atob` is the
  WHATWG forgiving-base64 decoder (returning the decoded bytes directly, i.e.
  the composition of `atob` with the per-character `charCodeAt` loop),
  `JSON.parse` of the IBC `packet_data` attribute is an explicit function
  parameter, and `Date` / `toFixed` formatting is abstracted into a `JsDate`
  record of functions (an `Option`-result models the `RangeError` that
  `toISOString` throws on an invalid date).
- Strings are ASCII in all the data the pipeline manipulates, so
  `toLowerCase`/`toUpperCase` are modelled by their ASCII restriction.
-/

/-- ASCII whitespace recognised by JavaScript `trim` (restricted to the ASCII
range, which is all the pipeline's data uses). -/
def isJsWs (c : Char) : Bool :=
  c = ' ' || c = '\t' || c = '\n' || c = '\r' || c = '\x0b' || c = '\x0c'

/-- ASCII restriction of JavaScript `toLowerCase` on one character
(`A`–`Z` have code points 65–90). -/
def lowerChar (c : Char) : Char :=
  if 65 ≤ c.toNat ∧ c.toNat ≤ 90 then Char.ofNat (c.toNat + 32) else c

/-- ASCII restriction of JavaScript `toUpperCase` on one character
(`a`–`z` have code points 97–122). -/
def upperChar (c : Char) : Char :=
  if 97 ≤ c.toNat ∧ c.toNat ≤ 122 then Char.ofNat (c.toNat - 32) else c

def lowerList (cs : List Char) : List Char := cs.map lowerChar

def upperList (cs : List Char) : List Char := cs.map upperChar

def trimLeadList (cs : List Char) : List Char := cs.dropWhile isJsWs

def trimTrailList (cs : List Char) : List Char := (cs.reverse.dropWhile isJsWs).reverse

/-- JavaScript `String.prototype.trim`. -/
def trimList (cs : List Char) : List Char := trimTrailList (trimLeadList cs)

/-- `.replace(/^0x/, '')`: drop one leading literal `0x`. -/
def strip0xList : List Char → List Char
  | c1 :: c2 :: rest => if c1 = '0' ∧ c2 = 'x' then rest else c1 :: c2 :: rest
  | cs => cs

/-- `helpers.ts`: `normalizeAddress = (s) => (s || '').trim().toLowerCase().replace(/^0x/, '')`
(`s || ''` is the identity on strings: `'' || ''` is `''`). -/
def normalizeAddress (s : String) : String :=
  ⟨strip0xList (lowerList (trimList s.data))⟩

def jsToLower (s : String) : String := ⟨lowerList s.data⟩

def jsToUpper (s : String) : String := ⟨upperList s.data⟩

/-- `helpers.ts`: `canonicalizeChain = (chain) => (chain || '').toLowerCase()`. -/
def canonicalizeChain (chain : String) : String := jsToLower chain

/-- JavaScript truthiness of an optional string (`undefined`/`null` and `''`
are falsy). -/
def jsTruthy : Option String → Bool
  | none => false
  | some s => s ≠ ""

/-- `String(x)` where `x` is a string or `undefined` (a missing JSON field). -/
def jsStringOpt : Option String → String
  | none => "undefined"
  | some s => s

/-- `String(x)` where `x` is a string or `null`. -/
def jsStringNull : Option String → String
  | none => "null"
  | some s => s

/-! ## Base64 (`atob`) and `decodeMintRecipient` (cctp-noble.ts) -/

def base64Alphabet : List Char :=
  "ABCDEFGHIJKLMNOPQRSTUVWXYZabcdefghijklmnopqrstuvwxyz0123456789+/".data

/-- Value of one base64 alphabet character (`none` for a character outside the
alphabet). -/
def sextet (c : Char) : Option Nat :=
  let i := base64Alphabet.indexOf c
  if i < 64 then some i else none

def sextetsOf : List Char → Option (List Nat)
  | [] => some []
  | c :: cs =>
    match sextet c, sextetsOf cs with
    | some v, some vs => some (v :: vs)
    | _, _ => none

/-- Reassemble 6-bit groups into bytes (forgiving-base64 ignores the leftover
bits of a trailing group of 2 or 3 characters). -/
def decodeSextets : List Nat → List Nat
  | a :: b :: c :: d :: rest =>
    (a * 4 + b / 16) :: ((b % 16) * 16 + c / 4) :: ((c % 4) * 64 + d) :: decodeSextets rest
  | [a, b] => [a * 4 + b / 16]
  | [a, b, c] => [a * 4 + b / 16, (b % 16) * 16 + c / 4]
  | _ => []

/-- Strip one or two trailing `=` padding characters. -/
def stripBase64Pad (cs : List Char) : List Char :=
  match cs.reverse with
  | '=' :: '=' :: rest => rest.reverse
  | '=' :: rest => rest.reverse
  | _ => cs

/-- WHATWG forgiving-base64 decode, i.e. the browser `atob` composed with the
`charCodeAt` loop that `decodeMintRecipient` runs on its result: remove ASCII
whitespace, strip up to two `=` padding characters when the length is a
multiple of four, fail on a remainder of one or on a character outside the
alphabet, and reassemble the 6-bit groups into bytes. `none` models the
`DOMException` that `atob` throws. Every produced byte is `< 256`. -/
def atob (s : String) : Option (List Nat) :=
  let d0 := s.data.filter (fun c => !(isJsWs c))
  let d := if d0.length % 4 = 0 then stripBase64Pad d0 else d0
  if d.length % 4 = 1 then none
  else (sextetsOf d).map decodeSextets

/-- `b.toString(16).padStart(2, '0')` for a byte `b < 256` (bytes produced by
`atob` are always below 256). -/
def byteHex (b : Nat) : List Char := [Nat.digitChar (b / 16), Nat.digitChar (b % 16)]

/-- `cctp-noble.ts` `decodeMintRecipient`: base64-decode, reject blobs shorter
than 20 bytes, and hex-encode the last 20 bytes with a `0x` prefix. The
`try`/`catch` around `atob` is modelled by the `Option`. -/
def decodeMintRecipient (base64Str : String) : Option String :=
  match atob base64Str with
  | none => none
  | some bytes =>
    if bytes.length < 20 then none
    else some ⟨'0' :: 'x' :: (bytes.drop (bytes.length - 20)).flatMap byteHex⟩

/-! ## Shared result shapes -/

/-- One display item of a trace result (`types.ts` `TraceItem`). `value` is
`Option`-valued because the handlers can push a missing provider field (e.g.
an absent `txhash`) into it. -/
structure TraceItem where
  label : String
  value : Option String
  href : Option String
deriving Repr, DecidableEq

/-- The two shapes `ResponseFormatter` produces: an error message, or a
success payload (which the formatter JSON-stringifies; the embedding stops at
the structured payload). -/
inductive StepResponse (α : Type) where
  | error (message : String)
  | success (payload : α)
deriving Repr, DecidableEq

/-- Whether a step outcome is a success payload satisfying `p`. -/
def StepResponse.isSuccessWith {α : Type} (p : α → Prop) : StepResponse α → Prop
  | .error _ => False
  | .success payload => p payload

/-! ## Retrying HTTP client (`api-client.ts` `makeRequest`) -/

/-- `makeRequest`: try up to `retries` attempts; `outcomes i` is attempt `i`
(`.ok` = a 2xx response with its parsed body, `.error` = the thrown message,
i.e. a network error or the `HTTP error! status: ...` exception raised on a
non-2xx status). The first successful attempt is returned; when every attempt
fails the function logs the last error and returns `null` (`none`) — the
upstream message is not part of the return value. -/
def makeRequest {α : Type} (outcomes : Nat → Except String α) (retries : Nat) : Option α :=
  (List.range retries).findSome? (fun i =>
    match outcomes i with
    | .ok v => some v
    | .error _ => none)

/-! ## Chain registry (`constants.ts` `EVM_CHAIN_INFO`, `helpers.ts` `getChainInfo`) -/

structure ChainInfo where
  chainId : Nat
  explorerUrl : String
  factoryContracts : List String
  domain : String
deriving Repr, DecidableEq

/-- The static chain table of `constants.ts`, as the lookup function its only
use (`EVM_CHAIN_INFO[upperChain]`) reduces to. -/
def EVM_CHAIN_INFO (key : String) : Option ChainInfo :=
  if key = "AVALANCHE" then
    some ⟨43114, "https://snowscan.xyz/tx/",
      ["0x647Ead1a35dbC2b0160Cbe6e565f25C4915a125F",
       "0x13cA288486f2bb6B3619c5fd6A2917Ec98a41E7f"], "1"⟩
  else if key = "ARBITRUM" then
    some ⟨42161, "https://arbiscan.io/tx/",
      ["0x647Ead1a35dbC2b0160Cbe6e565f25C4915a125F",
       "0x51e589D94b51d01B75442AE1504cD8c50d6127C9"], "3"⟩
  else if key = "ETHEREUM" then
    some ⟨1, "https://etherscan.io/tx/",
      ["0x647Ead1a35dbC2b0160Cbe6e565f25C4915a125F",
       "0x3bF3056835f7C25b1f71aff99B734Ad07d644577",
       "0x6ca3e8BFe9196A463136cB2442672e46BBe00BCc"], "0"⟩
  else if key = "OPTIMISM" then
    some ⟨10, "https://optimistic.etherscan.io/tx/",
      ["0x6ca3e8BFe9196A463136cB2442672e46BBe00BCc"], "2"⟩
  else if key = "BASE" then
    some ⟨8453, "https://basescan.org/tx/",
      ["0x724fB9Fd9876d12Da33223C84E7Abf46fFc159C1"], "6"⟩
  else none

/-- `helpers.ts`: `getChainInfo(chain) = EVM_CHAIN_INFO[(chain || '').toUpperCase()] || null`. -/
def getChainInfo (chain : String) : Option ChainInfo :=
  EVM_CHAIN_INFO (jsToUpper chain)

/-! ## Transaction log structures (Mintscan `logs[].events[].attributes[]`) -/

structure LogAttr where
  key : Option String
  value : Option String
deriving Repr, DecidableEq

structure LogEvent where
  type : Option String
  attributes : List LogAttr
deriving Repr, DecidableEq

structure TxLog where
  events : List LogEvent
deriving Repr, DecidableEq

/-- `.replace(/^"+|"+$/g, '')`: strip the leading and trailing runs of `"`. -/
def stripQuotes (s : String) : String :=
  ⟨((s.data.dropWhile (· = '"')).reverse.dropWhile (· = '"')).reverse⟩

/-- An attribute accepted by the `reduce` in `extractCctpDataFromLogs`:
`a?.key` truthy and `a?.value` neither `undefined` nor `null`. -/
def validAttr (a : LogAttr) : Bool := jsTruthy a.key && a.value.isSome

/-- The attribute map built by the `reduce` in `extractCctpDataFromLogs`,
looked up at key `k`: the last valid attribute with that key wins (later
`reduce` writes overwrite earlier ones), and its value is quote-stripped. -/
def attrLookup (attrs : List LogAttr) (k : String) : Option String :=
  ((attrs.filter validAttr).reverse.find? (fun a => a.key == some k)).bind
    (fun a => a.value.map stripQuotes)

/-! ## `extractCctpDataFromLogs` (cctp-noble.ts) -/

structure CctpLogExtraction where
  mintRecipient : Option String
  destinationDomain : Option String
deriving Repr, DecidableEq

def depositForBurnType : String := "circle.cctp.v1.DepositForBurn"

/-- `cctp-noble.ts` `extractCctpDataFromLogs`: find the first
`circle.cctp.v1.DepositForBurn` event across all logs; absent that event both
fields are `null`; otherwise read (and decode) its `mint_recipient` and
`destination_domain` attributes (`base64Recipient ? decode(...) : null` makes
an empty attribute value falsy, hence `null`). -/
def extractCctpDataFromLogs (logs : List TxLog) : CctpLogExtraction :=
  match (logs.flatMap (fun l => l.events)).find?
      (fun e => e.type == some depositForBurnType) with
  | none => ⟨none, none⟩
  | some evt =>
    let base64Recipient := attrLookup evt.attributes "mint_recipient"
    let destinationDomain := attrLookup evt.attributes "destination_domain"
    ⟨match base64Recipient with
      | some r => if r = "" then none else decodeMintRecipient r
      | none => none,
     destinationDomain⟩

/-! ## JavaScript `Date` / number-formatting abstraction -/

/-- The `Date`/`Number` formatting builtins the handlers call, abstracted as
explicit functions (they are runtime builtins, not repository code):
`dateIso x` models `new Date(x).toISOString()` on a string-or-`undefined`
value, `epochIso x` models `new Date(Number(x) * 1000).toISOString()`, and a
`none` result models the `RangeError` thrown on an invalid date (e.g.
`x = undefined` makes `new Date(undefined)` invalid). `gweiFixed2 x` models
`(Number(x) / 1e9).toFixed(2)`, which never throws. -/
structure JsDate where
  dateIso : Option String → Option String
  epochIso : Option String → Option String
  gweiFixed2 : String → String

/-! ## Mintscan transaction page shape -/

/-- The shapes `response?.data?.transactions || response?.transactions || []`
can see: the outer response may be `null` (exhausted retries) and either
transactions field may be absent. -/
structure MintscanPage (τ : Type) where
  dataTransactions : Option (List τ)
  transactions : Option (List τ)
deriving Repr, DecidableEq

/-- `response?.data?.transactions || response?.transactions || []` — note an
empty array is truthy in JavaScript, so a present-but-empty
`data.transactions` is used as-is. -/
def pageTxs {τ : Type} (response : Option (MintscanPage τ)) : List τ :=
  match response with
  | none => []
  | some r =>
    match r.dataTransactions with
    | some l => l
    | none => r.transactions.getD []

/-! ## Step 3 — `cctpNobleTxHandler` (cctp-noble.ts) -/

structure CoinAmount where
  amount : Option String
  denom : Option String
deriving Repr, DecidableEq

/-- One entry of `tx.tx.body.messages` as Step 3 reads it: the `'@type'`
discriminator and the optional `amount` object. -/
structure NobleMsg where
  atType : Option String
  amount : Option CoinAmount
deriving Repr, DecidableEq

/-- A Mintscan Noble transaction as Step 3 reads it. `messages` collapses the
`tx.tx.body.messages` path (each `?.` step of which tolerates absence).
`height`/`code` model the numeric JSON fields (`Number(tx.height ?? 0)`). -/
structure NobleTx where
  txhash : Option String
  logs : Option (List TxLog)
  messages : Option (List NobleMsg)
  height : Option Nat
  code : Option Nat
  timestamp : Option String
deriving Repr, DecidableEq

structure SanitizedNobleTx where
  hash : String
  height : Nat
  code : Nat
  timestamp : String
  explorerUrl : String
deriving Repr, DecidableEq

/-- The success payload Step 3 returns (`found=false` leaves the optional
fields absent). -/
structure CctpNoblePayload where
  title : String
  found : Bool
  txHash : Option String
  burnAmount : Option String
  burnDenom : Option String
  transaction : Option SanitizedNobleTx
  items : List TraceItem
  message : Option String
deriving Repr, DecidableEq

structure CctpNobleParams where
  nobleAddress : Option String
  destChain : Option String
  destinationEvmAddress : Option String
deriving Repr, DecidableEq

def mintscanNobleTxUrl : String := "https://www.mintscan.io/noble/txs/"

/-- The per-transaction match test of Step 3's scan loop:
`String(destinationDomain) === String(expectedDomain)` (the extraction's
`destinationDomain` is `null` when absent) and
`normalizeAddress(mintRecipient || '') === normalizeAddress(destinationEvmAddress)`. -/
def cctpTxMatches (expectedDomain : String) (destinationEvmAddress : String)
    (tx : NobleTx) : Bool :=
  let e := extractCctpDataFromLogs (tx.logs.getD [])
  (jsStringNull e.destinationDomain == expectedDomain) &&
    (normalizeAddress (e.mintRecipient.getD "") == normalizeAddress destinationEvmAddress)

/-- The first message with `msg?.['@type'] === '/circle.fiattokenfactory.v1.MsgBurn'`
and a present `amount` object (the inner `for`/`break` of the match branch). -/
def cctpBurnMsg (messages : List NobleMsg) : Option NobleMsg :=
  messages.find? (fun m =>
    m.atType == some "/circle.fiattokenfactory.v1.MsgBurn" && m.amount.isSome)

/-- The success result Step 3 builds from the matched transaction: the items,
the sanitized transaction, and the extracted burn amount/denom. A `dateIso`
failure models the `RangeError` thrown by
`new Date(tx.timestamp).toISOString()`, which the outer `catch` converts into
an error result. -/
def cctpNobleFound (rt : JsDate) (destinationEvmAddress : String) (tx : NobleTx) :
    StepResponse CctpNoblePayload :=
  let txHash := tx.txhash
  let txUrl := mintscanNobleTxUrl ++ jsStringOpt txHash
  let e := extractCctpDataFromLogs (tx.logs.getD [])
  let burn := cctpBurnMsg (tx.messages.getD [])
  let burnAmount := burn.bind (fun m => m.amount.bind (fun a => a.amount))
  let burnDenom := burn.bind (fun m => m.amount.bind (fun a => a.denom))
  let items : List TraceItem :=
    [⟨"Noble CCTP Tx", txHash, some txUrl⟩,
     ⟨"Destination EVM", some destinationEvmAddress, none⟩,
     ⟨"Destination Domain", some (jsStringNull e.destinationDomain), none⟩] ++
    (if jsTruthy burnAmount && jsTruthy burnDenom then
      [⟨"Amount", some (burnAmount.getD "" ++ " " ++ burnDenom.getD ""), none⟩]
     else [])
  match rt.dateIso tx.timestamp with
  | none => .error "Error tracing CCTP Noble step: Invalid time value"
  | some iso =>
    .success ⟨"CCTP on Noble", true, some (jsStringOpt txHash), burnAmount, burnDenom,
      some ⟨jsStringOpt txHash, tx.height.getD 0, tx.code.getD 0, iso, txUrl⟩,
      items, none⟩

/-- Step 3 (`trace-cctp-noble-step`): guard the parameters, read the fetched
transaction page (`response = none` models an exhausted-retries `null`),
resolve the chain profile, and return the result built from the first
transaction matching `cctpTxMatches`, or `found=false` when none matches. -/
def cctpNobleTxHandler (rt : JsDate) (params : CctpNobleParams)
    (response : Option (MintscanPage NobleTx)) : StepResponse CctpNoblePayload :=
  if !(jsTruthy params.nobleAddress && jsTruthy params.destChain &&
      jsTruthy params.destinationEvmAddress) then
    .error "Missing required parameters"
  else
    let destChain := canonicalizeChain (params.destChain.getD "")
    let transactions := pageTxs response
    match getChainInfo destChain with
    | none => .error ("Unsupported destination chain: " ++ destChain)
    | some chainInfo =>
      match transactions.find?
          (cctpTxMatches chainInfo.domain (params.destinationEvmAddress.getD "")) with
      | some tx => cctpNobleFound rt (params.destinationEvmAddress.getD "") tx
      | none =>
        .success ⟨"CCTP on Noble", false, none, none, none, none, [],
          some "No matching CCTP burn transactions found"⟩

/-- `a || b` on JavaScript optional strings (first operand when truthy). -/
def jsOr (a b : Option String) : Option String := if jsTruthy a then a else b

/-- `x ? String(x) : undefined` on an optional string. -/
def keepTruthy (o : Option String) : Option String := if jsTruthy o then o else none

/-! ## Step 1 — `axelarGmpTxHandler` (axelar-gmp.ts) -/

/-- The POST body of one `searchGMP` probe. -/
structure GmpSearchBody where
  size : Nat
  sourceAddress : String
  address : String
  destinationChain : String
deriving Repr, DecidableEq

structure GmpCall where
  id : Option String
  event : Option String
  transactionHash : Option String
  timestamp : Option String
deriving Repr, DecidableEq

structure GmpApproved where
  transactionHash : Option String
deriving Repr, DecidableEq

structure GmpRecord where
  call : Option GmpCall
  approved : Option GmpApproved
  timestamp : Option String
deriving Repr, DecidableEq

structure GmpResp where
  data : Option (List GmpRecord)
deriving Repr, DecidableEq

/-- The loop's stop test: `Array.isArray(data?.data) && data.data.length > 0`. -/
def gmpNonEmpty (r : Option GmpResp) : Bool :=
  match r with
  | some resp =>
    match resp.data with
    | some l => decide (0 < l.length)
    | none => false
  | none => false

/-- The `for (const factoryAddress of chainInfo.FACTORY_CONTRACTS)` probe
loop, in explicit state-passing form: the first component records the search
bodies actually POSTed (one per probed contract, in order), the second is the
final `gmpData` (the first non-empty response, else `null`). -/
def probeFactories (oracle : GmpSearchBody → Option GmpResp)
    (size : Nat) (agoricAddress destChain : String) :
    List String → List GmpSearchBody × Option GmpResp
  | [] => ([], none)
  | factoryAddress :: rest =>
    let body : GmpSearchBody := ⟨size, agoricAddress, factoryAddress, destChain⟩
    let resp := oracle body
    if gmpNonEmpty resp then ([body], resp)
    else
      let (q, r) := probeFactories oracle size agoricAddress destChain rest
      (body :: q, r)

structure SanitizedGmpTx where
  gmpId : String
  event : Option String
  destTxHash : Option String
  sourceTxHash : Option String
  timestamp : Option String
  explorerUrl : Option String
  gmpUrl : Option String
deriving Repr, DecidableEq

structure AxelarGmpPayload where
  step : Option String
  title : String
  found : Bool
  message : Option String
  transaction : Option SanitizedGmpTx
  items : List TraceItem
deriving Repr, DecidableEq

/-- The success result Step 1 builds from the first record of the non-empty
response. A `dateIso` failure on a truthy timestamp models the `RangeError`
of `new Date(timestamp).toISOString()`, caught by the outer `catch`. -/
def axelarGmpFound (rt : JsDate) (chainInfo : ChainInfo) (first : GmpRecord) :
    StepResponse AxelarGmpPayload :=
  let gmpId := first.call.bind (fun c => c.id)
  let event := first.call.bind (fun c => c.event)
  let destTxHash := first.approved.bind (fun a => a.transactionHash)
  let timestamp := jsOr (first.call.bind (fun c => c.timestamp)) first.timestamp
  let sourceTxHash := first.call.bind (fun c => c.transactionHash)
  let items : List TraceItem :=
    (if jsTruthy destTxHash && chainInfo.explorerUrl ≠ "" then
      [⟨"Destination Tx", destTxHash, some (chainInfo.explorerUrl ++ destTxHash.getD "")⟩]
     else []) ++
    (if jsTruthy sourceTxHash then
      [⟨"Source Tx", sourceTxHash, some ("https://axelarscan.io/tx/" ++ sourceTxHash.getD "")⟩]
     else []) ++
    (if jsTruthy gmpId then
      [⟨"Axelar GMP ID", gmpId, some ("https://axelarscan.io/gmp/" ++ gmpId.getD "")⟩]
     else []) ++
    (if jsTruthy event then [⟨"Event", some (event.getD ""), none⟩] else [])
  let isoRes : Except Unit (Option String) :=
    if jsTruthy timestamp then
      match rt.dateIso timestamp with
      | none => .error ()
      | some iso => .ok (some iso)
    else .ok none
  match isoRes with
  | .error _ => .error "Error tracing Axelar GMP step: Invalid time value"
  | .ok isoTimestamp =>
    .success ⟨none, "Axelar GMP (make account)", true, none,
      some ⟨gmpId.getD "", keepTruthy event, keepTruthy destTxHash, keepTruthy sourceTxHash,
        isoTimestamp,
        (if jsTruthy destTxHash then some (chainInfo.explorerUrl ++ destTxHash.getD "")
         else none),
        (if jsTruthy gmpId then some ("https://axelarscan.io/gmp/" ++ gmpId.getD "")
         else none)⟩,
      items⟩

structure AxelarGmpParams where
  destChain : Option String
  agoricAddress : Option String
  size : Nat
deriving Repr, DecidableEq

/-- Step 1 (`trace-axelar-gmp-step`): guard the parameters, resolve the chain
profile (a missing profile reads as missing factory contracts), probe the
factory contracts in configured order via `probeFactories`, and either build
the result from the first record of the first non-empty response or report
`found=false`. -/
def axelarGmpTxHandler (rt : JsDate) (params : AxelarGmpParams)
    (oracle : GmpSearchBody → Option GmpResp) : StepResponse AxelarGmpPayload :=
  if !(jsTruthy params.destChain && jsTruthy params.agoricAddress) then
    .error "Missing required parameters"
  else
    let destChain := canonicalizeChain (params.destChain.getD "")
    match getChainInfo destChain with
    | none => .error ("No factory contracts configured for chain: " ++ destChain)
    | some chainInfo =>
      if chainInfo.factoryContracts.length = 0 then
        .error ("No factory contracts configured for chain: " ++ destChain)
      else
        let gmpData := (probeFactories oracle params.size (params.agoricAddress.getD "")
          destChain chainInfo.factoryContracts).2
        match gmpData with
        | some { data := some (first :: _) } => axelarGmpFound rt chainInfo first
        | _ =>
          .success ⟨some "step1", "Axelar GMP (make account)", false,
            some "No GMP transactions found", none, []⟩

/-! ## Step 2 — `agoricFundingTxHandler` (agoric-funding.ts) -/

structure IbcPacket where
  sequence : Option String
  destination_channel : Option String
  destination_port : Option String
deriving Repr, DecidableEq

structure AgoricMsg where
  packet : Option IbcPacket
deriving Repr, DecidableEq

structure AgoricTx where
  txhash : Option String
  logs : Option (List TxLog)
  messages : Option (List AgoricMsg)
deriving Repr, DecidableEq

/-- The part of a parsed `packet_data` JSON document the code reads
(`packet?.receiver`). A parse producing no object / no receiver is `none` /
`receiver := none`. -/
structure PacketData where
  receiver : Option String
deriving Repr, DecidableEq

def recvPacketType : String := "recv_packet"

def writeAcknowledgementType : String := "write_acknowledgement"

def fungibleTokenPacketType : String := "fungible_token_packet"

/-- One iteration of the event loop in `extractReceiverFromLogs`:
a receive-packet / write-acknowledgement event yields the `receiver` of its
parsed `packet_data` JSON (a falsy attribute value or a parse failure yields
nothing), a fungible-token-packet event yields its direct `receiver`
attribute; anything else yields nothing. `parsePacketData` models
`JSON.parse` (a runtime builtin), `none` modelling the caught exception. -/
def extractReceiverFromEvent (parsePacketData : String → Option PacketData)
    (event : LogEvent) : Option String :=
  if event.type == some recvPacketType || event.type == some writeAcknowledgementType then
    match (event.attributes.find? (fun a => a.key == some "packet_data")).bind
        (fun a => a.value) with
    | some v =>
      if v = "" then none
      else
        match parsePacketData v with
        | some packet => keepTruthy packet.receiver
        | none => none
    | none => none
  else if event.type == some fungibleTokenPacketType then
    keepTruthy ((event.attributes.find? (fun a => a.key == some "receiver")).bind
      (fun a => a.value))
  else none

/-- `agoric-funding.ts` `extractReceiverFromLogs`: flatten the logs' events
and return the first receiver any event yields. -/
def extractReceiverFromLogs (parsePacketData : String → Option PacketData)
    (logs : List TxLog) : Option String :=
  (logs.flatMap (fun l => l.events)).findSome? (extractReceiverFromEvent parsePacketData)

structure IbcTxHit where
  txhash : Option String
deriving Repr, DecidableEq

structure IbcTxResp where
  tx_responses : Option (List IbcTxHit)
deriving Repr, DecidableEq

/-- `helpers.ts` `getNobleTxByIbc`: falsy channel or sequence yields no
hashes; otherwise strip apostrophes from both (injection guard), query the
Noble index (the oracle takes the sanitized channel and sequence), and keep
the truthy `txhash` values. -/
def getNobleTxByIbc (oracle : String → String → Option IbcTxResp)
    (channel sequence : Option String) : List String :=
  if !(jsTruthy channel && jsTruthy sequence) then []
  else
    let sanitizedChannel : String := ⟨(channel.getD "").data.filter (fun c => c ≠ Char.ofNat 39)⟩
    let sanitizedSequence : String := ⟨(sequence.getD "").data.filter (fun c => c ≠ Char.ofNat 39)⟩
    match oracle sanitizedChannel sanitizedSequence with
    | none => []
    | some data =>
      ((data.tx_responses.getD []).map (fun t => t.txhash)).filterMap keepTruthy

/-- The `for (const tx of transactions)` scan of Step 2, in explicit
state-passing form: the first component is the list of transactions actually
scanned (in order, up to and including the match), the second the matched
transaction. The match test is `receiverAddress === nobleAddress` — exact
string equality on the extracted receiver. -/
def scanFundingTxs (parsePacketData : String → Option PacketData) (nobleAddress : String) :
    List AgoricTx → List AgoricTx × Option AgoricTx
  | [] => ([], none)
  | tx :: rest =>
    if extractReceiverFromLogs parsePacketData (tx.logs.getD []) == some nobleAddress then
      ([tx], some tx)
    else
      let (s, r) := scanFundingTxs parsePacketData nobleAddress rest
      (tx :: s, r)

/-- The items Step 2 pushes for the matched transaction: the Agoric tx link,
the receiver, the IBC packet fields of every message carrying a packet, and a
best-effort Noble inbound-transaction link via `getNobleTxByIbc`. -/
def fundingFoundItems (nobleOracle : String → String → Option IbcTxResp)
    (nobleAddress : String) (tx : AgoricTx) : List TraceItem :=
  let txHash := tx.txhash
  let messages := tx.messages.getD []
  [⟨"Agoric Tx", txHash, some ("https://www.mintscan.io/agoric/txs/" ++ jsStringOpt txHash)⟩,
   ⟨"Receiver", some nobleAddress, none⟩] ++
  (messages.flatMap (fun msg =>
    match msg.packet with
    | none => []
    | some p =>
      (if jsTruthy p.sequence then
        [⟨"IBC Packet Seq", some (p.sequence.getD ""), none⟩] else []) ++
      (if jsTruthy p.destination_channel then
        [⟨"IBC Channel", some (p.destination_channel.getD ""), none⟩] else []) ++
      (if jsTruthy p.destination_port then
        [⟨"IBC Port", some (p.destination_port.getD ""), none⟩] else []))) ++
  (match messages.find? (fun m => m.packet.isSome) with
   | some msg =>
     match msg.packet with
     | some p =>
       if jsTruthy p.destination_channel && jsTruthy p.sequence then
         match getNobleTxByIbc nobleOracle p.destination_channel p.sequence with
         | [] => []
         | nobleHash :: _ =>
           [⟨"Noble Tx", some nobleHash,
             some ("https://www.mintscan.io/noble/txs/" ++ nobleHash)⟩]
       else []
     | none => []
   | none => [])

structure FundingPayload where
  title : String
  found : Bool
  items : List TraceItem
  message : Option String
deriving Repr, DecidableEq

structure FundingParams where
  agoricAddress : Option String
  nobleAddress : Option String
deriving Repr, DecidableEq

/-- Step 2 (`trace-agoric-funding-ack-step`): guard the parameters, read the
fetched transaction page, scan for the first transaction whose extracted
receiver is exactly the Noble address, and report its items (or `found=false`
with the page-limit message). -/
def agoricFundingTxHandler (parsePacketData : String → Option PacketData)
    (nobleOracle : String → String → Option IbcTxResp)
    (params : FundingParams) (response : Option (MintscanPage AgoricTx)) :
    StepResponse FundingPayload :=
  if !(jsTruthy params.agoricAddress && jsTruthy params.nobleAddress) then
    .error "Missing required parameters"
  else
    let transactions := pageTxs response
    match (scanFundingTxs parsePacketData (params.nobleAddress.getD "") transactions).2 with
    | some tx =>
      .success ⟨"Funding of Noble ICA + IBC ACK", true,
        fundingFoundItems nobleOracle (params.nobleAddress.getD "") tx, none⟩
    | none =>
      .success ⟨"Funding of Noble ICA + IBC ACK", false, [],
        some ("No relevant IBC acknowledgment transactions found in the last " ++
          toString transactions.length ++ " transactions (Mintscan limit: 20)")⟩

/-! ## JavaScript numeric string parsing (`BigInt(string)`, `Number(string)`) -/

def decDigitVal (c : Char) : Option Nat :=
  if '0' ≤ c ∧ c ≤ '9' then some (c.toNat - 48) else none

def hexDigitVal (c : Char) : Option Nat :=
  if '0' ≤ c ∧ c ≤ '9' then some (c.toNat - 48)
  else if 'a' ≤ c ∧ c ≤ 'f' then some (c.toNat - 87)
  else if 'A' ≤ c ∧ c ≤ 'F' then some (c.toNat - 55)
  else none

def octDigitVal (c : Char) : Option Nat :=
  if '0' ≤ c ∧ c ≤ '7' then some (c.toNat - 48) else none

def binDigitVal (c : Char) : Option Nat :=
  if c = '0' then some 0 else if c = '1' then some 1 else none

def digitsValAux (base : Nat) (dv : Char → Option Nat) : List Char → Nat → Option Nat
  | [], acc => some acc
  | c :: cs, acc =>
    match dv c with
    | some v => digitsValAux base dv cs (acc * base + v)
    | none => none

/-- Value of a non-empty digit sequence in the given base (`none` on an empty
sequence or an invalid digit). -/
def digitsVal (base : Nat) (dv : Char → Option Nat) : List Char → Option Nat
  | [] => none
  | cs => digitsValAux base dv cs 0

/-- `BigInt(s)` for a string argument: trim whitespace, empty means `0`,
`0x`/`0o`/`0b` radix prefixes (no sign), otherwise an optionally signed
decimal integer; anything else throws a `SyntaxError`, modelled as `none`. -/
def jsBigIntOfString (s : String) : Option Int :=
  match trimList s.data with
  | [] => some 0
  | '0' :: 'x' :: rest => (digitsVal 16 hexDigitVal rest).map Int.ofNat
  | '0' :: 'X' :: rest => (digitsVal 16 hexDigitVal rest).map Int.ofNat
  | '0' :: 'o' :: rest => (digitsVal 8 octDigitVal rest).map Int.ofNat
  | '0' :: 'O' :: rest => (digitsVal 8 octDigitVal rest).map Int.ofNat
  | '0' :: 'b' :: rest => (digitsVal 2 binDigitVal rest).map Int.ofNat
  | '0' :: 'B' :: rest => (digitsVal 2 binDigitVal rest).map Int.ofNat
  | '-' :: rest => (digitsVal 10 decDigitVal rest).map (fun n => -(n : Int))
  | '+' :: rest => (digitsVal 10 decDigitVal rest).map Int.ofNat
  | cs => (digitsVal 10 decDigitVal cs).map Int.ofNat

/-- `Number(s)` restricted to the integer-valued strings the pipeline's
numeric provider fields use (decimal, optionally signed, or `0x` hex); `none`
models `NaN`. Fractional/exponent forms do not occur in these fields. -/
def jsNumberOfString (s : String) : Option Int :=
  match trimList s.data with
  | [] => some 0
  | '0' :: 'x' :: rest => (digitsVal 16 hexDigitVal rest).map Int.ofNat
  | '0' :: 'X' :: rest => (digitsVal 16 hexDigitVal rest).map Int.ofNat
  | '-' :: rest => (digitsVal 10 decDigitVal rest).map (fun n => -(n : Int))
  | '+' :: rest => (digitsVal 10 decDigitVal rest).map Int.ofNat
  | cs => (digitsVal 10 decDigitVal cs).map Int.ofNat

/-- `Number(x ?? 0)` on an optional numeric string field. -/
def jsNumberField (o : Option String) : Option Int :=
  match o with
  | none => some 0
  | some s => jsNumberOfString s

/-! ## Step 4 — `finalEvmTxHandler` (final-evm.ts) -/

/-- An Etherscan `txlist` entry as Step 4 reads it. `fromAddr`/`toAddr` embed
the JSON fields `from`/`to` (`from` is a Lean keyword). -/
structure EvmTx where
  hash : Option String
  fromAddr : Option String
  toAddr : Option String
  value : Option String
  blockNumber : Option String
  timeStamp : Option String
  functionName : Option String
  gasUsed : Option String
  gasPrice : Option String
  confirmations : Option String
deriving Repr, DecidableEq

/-- The `result` field of the Etherscan list response: an array of
transactions, a string (Etherscan error text), or anything else. -/
inductive EtherscanResult where
  | arr (txs : List EvmTx)
  | str (s : String)
  | other
deriving Repr, DecidableEq

structure EtherscanListResp where
  status : Option String
  message : Option String
  result : EtherscanResult
deriving Repr, DecidableEq

def EtherscanResult.isArr : EtherscanResult → Bool
  | .arr _ => true
  | _ => false

def EtherscanResult.asArr : EtherscanResult → List EvmTx
  | .arr txs => txs
  | _ => []

/-- `typeof result === 'string' ? result : message || 'NOTOK'`. -/
def etherscanErrMsg (resp : EtherscanListResp) : String :=
  match resp.result with
  | .str s => s
  | _ => if jsTruthy resp.message then resp.message.getD "" else "NOTOK"

/-- `String(t.functionName || '').startsWith('execute')`. -/
def isExecuteTx (t : EvmTx) : Bool :=
  List.isPrefixOf "execute".data (t.functionName.getD "").data

/-- `Number(t.timeStamp || 0)` as the sort key; `none` models `NaN`. -/
def timeKey (t : EvmTx) : Option Int :=
  match t.timeStamp with
  | none => some 0
  | some s => if s = "" then some 0 else jsNumberOfString s

/-- The descending-timestamp comparator `(a, b) => Number(b.timeStamp || 0) - Number(a.timeStamp || 0)`
as a stable-sort `le` relation; a `NaN` difference is treated as 0 (equal),
as the sort implementation does. -/
def timeDescLe (a b : EvmTx) : Bool :=
  match timeKey a, timeKey b with
  | some ka, some kb => kb ≤ ka
  | _, _ => true

/-- Filter to `execute*` calls, sort by timestamp descending (stable), take
the most recent: `executes[0]`. -/
def selectEvmTx (transactions : List EvmTx) : Option EvmTx :=
  ((transactions.filter isExecuteTx).mergeSort timeDescLe).head?

def transferTopic : String :=
  "0xddf252ad1be2c89b69c2b068fc378daa952ba7f163c4a11628f55a4df523b3ef"

/-- `log.topics?.[0] === transferTopic && log.topics.length >= 3` and the
second indexed topic (its last 40 hex chars, `slice(26)`) equals the target
address case-insensitively. -/
structure ReceiptLog where
  topics : Option (List String)
  data : Option String
deriving Repr, DecidableEq

structure TxReceipt where
  logs : Option (List ReceiptLog)
deriving Repr, DecidableEq

structure ReceiptResp where
  result : Option TxReceipt
deriving Repr, DecidableEq

def transferLogMatches (destinationEvmAddress : String) (log : ReceiptLog) : Bool :=
  match log.topics with
  | none => false
  | some topics =>
    topics.head? == some transferTopic && decide (3 ≤ topics.length) &&
      (jsToLower ("0x" ++ (topics.getD 2 "").drop 26) == jsToLower destinationEvmAddress)

/-- The receipt-log scan of Step 4, in explicit state-passing form: the first
component is the items it pushes (the decoded base-unit amount and, when a
supplied `expectedAmount` parses to the same big integer, the `Amount Match`
annotation), the second the final `tokenTransferAmount` (the raw `log.data`
of the last address-matching log seen, which is assigned even when
`BigInt(log.data)` throws and the scan continues). -/
def scanReceiptLogs (destinationEvmAddress : String) (expectedAmount : Option String) :
    List ReceiptLog → Option String → List TraceItem × Option String
  | [], tta => ([], tta)
  | log :: rest, tta =>
    if transferLogMatches destinationEvmAddress log then
      let tta' := log.data
      match log.data.bind (fun d => jsBigIntOfString d) with
      | none => scanReceiptLogs destinationEvmAddress expectedAmount rest tta'
      | some amountBaseUnits =>
        ([⟨"Token Transfer (base units)", some (toString amountBaseUnits), none⟩] ++
          (match expectedAmount with
           | some e =>
             if e ≠ "" then
               match jsBigIntOfString e with
               | some expectedBaseUnits =>
                 if amountBaseUnits = expectedBaseUnits then
                   [⟨"Amount Match", some "Matches expected base-unit amount", none⟩]
                 else []
               | none => []
             else []
           | none => []),
         tta')
    else scanReceiptLogs destinationEvmAddress expectedAmount rest tta

/-- `String(s).split('(')[0]`. -/
def beforeParen (s : String) : String := ⟨s.data.takeWhile (fun c => c ≠ '(')⟩

structure SanitizedEvmTx where
  hash : String
  fromAddr : String
  toAddr : String
  value : String
  blockNumber : Option Int
  timeStamp : String
  gasUsed : String
  gasPrice : String
  method : Option String
  confirmations : Option Int
  explorerUrl : Option String
deriving Repr, DecidableEq

structure FinalEvmPayload where
  step : Option String
  title : String
  found : Bool
  txHash : Option String
  tokenTransferAmount : Option String
  transaction : Option SanitizedEvmTx
  items : List TraceItem
  message : Option String
deriving Repr, DecidableEq

/-- The readable transaction-info items Step 4 pushes before the receipt
scan; building the `Time` item can throw (`Except.error`) when the truthy
timestamp is not a valid epoch. -/
def finalEvmTxItems (rt : JsDate) (chainInfo : ChainInfo) (evmTx : EvmTx) :
    Except Unit (List TraceItem) :=
  let pre : List TraceItem :=
    (if jsTruthy evmTx.hash then
      [⟨"Tx Hash", evmTx.hash,
        if chainInfo.explorerUrl ≠ "" then
          some (chainInfo.explorerUrl ++ jsStringOpt evmTx.hash)
        else none⟩]
     else []) ++
    (if jsTruthy evmTx.fromAddr then [⟨"From", evmTx.fromAddr, none⟩] else []) ++
    (if jsTruthy evmTx.toAddr then [⟨"To", evmTx.toAddr, none⟩] else []) ++
    (if jsTruthy evmTx.blockNumber then
      [⟨"Block", some (jsStringOpt evmTx.blockNumber), none⟩] else [])
  let post : List TraceItem :=
    (if jsTruthy evmTx.functionName then
      [⟨"Method", some (beforeParen (evmTx.functionName.getD "")), none⟩] else []) ++
    (if jsTruthy evmTx.gasUsed then
      [⟨"Gas Used", some (jsStringOpt evmTx.gasUsed), none⟩] else []) ++
    (if jsTruthy evmTx.gasPrice then
      [⟨"Gas Price (Gwei)", some (rt.gweiFixed2 (evmTx.gasPrice.getD "")), none⟩]
     else [])
  if jsTruthy evmTx.timeStamp then
    match rt.epochIso evmTx.timeStamp with
    | none => .error ()
    | some iso => .ok (pre ++ [⟨"Time", some iso, none⟩] ++ post)
  else .ok (pre ++ post)

/-- The success result Step 4 builds for the selected `execute*` transaction:
info items, receipt scan (best-effort; the receipt oracle takes the
stringified tx hash), and the sanitized transaction summary, whose timestamp
conversion throws on an invalid epoch (outer `catch` → error result). -/
def finalEvmFound (rt : JsDate) (chainInfo : ChainInfo) (expectedAmount : Option String)
    (destinationEvmAddress : String) (evmTx : EvmTx)
    (receiptOracle : String → Option ReceiptResp) : StepResponse FinalEvmPayload :=
  match finalEvmTxItems rt chainInfo evmTx with
  | .error _ => .error "Error tracing final EVM transaction: Invalid time value"
  | .ok txItems =>
    let receipt := (receiptOracle (jsStringOpt evmTx.hash)).bind (fun r => r.result)
    let scanned :=
      match receipt with
      | some rec =>
        match rec.logs with
        | some logs => scanReceiptLogs destinationEvmAddress expectedAmount logs none
        | none => ([], none)
      | none => ([], none)
    match rt.epochIso evmTx.timeStamp with
    | none => .error "Error tracing final EVM transaction: Invalid time value"
    | some iso =>
      .success ⟨none, "Final EVM Transaction", true, some (jsStringOpt evmTx.hash),
        scanned.2,
        some ⟨jsStringOpt evmTx.hash, jsStringOpt evmTx.fromAddr, jsStringOpt evmTx.toAddr,
          evmTx.value.getD "0", jsNumberField evmTx.blockNumber, iso,
          evmTx.gasUsed.getD "0", evmTx.gasPrice.getD "0",
          (if jsTruthy evmTx.functionName then
            some (beforeParen (evmTx.functionName.getD "")) else none),
          jsNumberField evmTx.confirmations,
          (if chainInfo.explorerUrl ≠ "" then
            some (chainInfo.explorerUrl ++ jsStringOpt evmTx.hash) else none)⟩,
        txItems ++ scanned.1, none⟩

structure FinalEvmParams where
  destChain : Option String
  destinationEvmAddress : Option String
  expectedAmount : Option String
deriving Repr, DecidableEq

/-- Step 4 (`trace-final-evm-step`): guard parameters, chain profile and API
key; a `null` list response (exhausted retries) is an explicit error; a
status-`"0"` response whose `result` is not an array is an Etherscan error;
otherwise filter/sort the `execute*` transactions and build the result for
the most recent one, or `found=false` when there is none. -/
def finalEvmTxHandler (rt : JsDate) (params : FinalEvmParams) (apiKey : Option String)
    (response : Option EtherscanListResp)
    (receiptOracle : String → Option ReceiptResp) : StepResponse FinalEvmPayload :=
  if !(jsTruthy params.destChain && jsTruthy params.destinationEvmAddress) then
    .error "Missing required parameters"
  else
    let destChain := canonicalizeChain (params.destChain.getD "")
    match getChainInfo destChain with
    | none => .error ("Unsupported destination chain: " ++ destChain)
    | some chainInfo =>
      if !(jsTruthy apiKey) then .error "Missing Etherscan API key"
      else
        match response with
        | none => .error "Etherscan API request failed"
        | some resp =>
          if resp.status == some "0" && !resp.result.isArr then
            .error ("Etherscan error: " ++ etherscanErrMsg resp)
          else
            match selectEvmTx resp.result.asArr with
            | none =>
              .success ⟨some "step4", "Final EVM Transaction", false, none, none, none, [],
                some "No execute* transactions found"⟩
            | some evmTx =>
              finalEvmFound rt chainInfo params.expectedAmount
                (params.destinationEvmAddress.getD "") evmTx receiptOracle

/-! ## Claim-side definitions -/

/-- The inputs on which `normalizeAddress` is not idempotent: after trimming
and lowercasing, the string starts with `0x` and stripping that prefix
exposes either another `0x` prefix or leading whitespace. -/
def normalizeUnstable (s : String) : Bool :=
  let t := lowerList (trimList s.data)
  List.isPrefixOf ['0', 'x'] t &&
    (List.isPrefixOf ['0', 'x'] (t.drop 2) || (t.drop 2).head?.any isJsWs)

/-- A trivial `Date` runtime for concrete witnesses. -/
def rtTrivial : JsDate := ⟨fun _ => none, fun _ => none, fun _ => ""⟩

/-- The Avalanche profile of `EVM_CHAIN_INFO`, for concrete witnesses. -/
def avalancheInfo : ChainInfo :=
  ⟨43114, "https://snowscan.xyz/tx/",
    ["0x647Ead1a35dbC2b0160Cbe6e565f25C4915a125F",
     "0x13cA288486f2bb6B3619c5fd6A2917Ec98a41E7f"], "1"⟩

/-- A mock GMP index: empty for the first Avalanche factory contract,
non-empty (one empty record) for the second. -/
def axelarDemoOracle : GmpSearchBody → Option GmpResp := fun b =>
  if b.address = "0x13cA288486f2bb6B3619c5fd6A2917Ec98a41E7f" then
    some ⟨some [⟨none, none, none⟩]⟩
  else some ⟨some []⟩

/-- A Step 2 demo transaction whose logs carry a `recv_packet` event with a
`packet_data` attribute. -/
def fundingDemoTx : AgoricTx :=
  ⟨some "AGORICHASH",
   some [⟨[⟨some "recv_packet", [⟨some "packet_data", some "pd"⟩]⟩]⟩],
   some []⟩

/-- A mock `JSON.parse` recognising the demo `packet_data` payload. -/
def fundingDemoParse : String → Option PacketData := fun s =>
  if s = "pd" then some ⟨some "noble1abc"⟩ else none

/-- C4's match predicate as the claim states it: the decoded mint recipient
exists and equals the target address after normalization, and the extracted
destination domain equals the profile's domain id. -/
def cctpClaimMatches (domain target : String) (tx : NobleTx) : Prop :=
  (∃ r, (extractCctpDataFromLogs (tx.logs.getD [])).mintRecipient = some r ∧
    normalizeAddress r = normalizeAddress target) ∧
  (extractCctpDataFromLogs (tx.logs.getD [])).destinationDomain = some domain

/-- A Step 3 demo transaction: one `DepositForBurn` event with
`destination_domain = "1"` and a base64 `mint_recipient` whose last 20 bytes
are `0x1234...5678`, plus a `MsgBurn` message body with an amount. -/
def cctpDemoTx : NobleTx :=
  ⟨some "NOBLEHASH",
   some [⟨[⟨some "circle.cctp.v1.DepositForBurn",
     [⟨some "mint_recipient", some "AAAAAAAAAAAAAAAAEjRWeJCrze8SNFZ4kKvN7xI0Vng="⟩,
      ⟨some "destination_domain", some "1"⟩]⟩]⟩],
   some [⟨some "/circle.fiattokenfactory.v1.MsgBurn", some ⟨some "1000000", some "uusdc"⟩⟩],
   some 100, some 0, some "2024-01-01T00:00:00Z"⟩

/-- A `Date` runtime whose conversions always succeed, for concrete
witnesses. -/
def rtIsoDemo : JsDate :=
  ⟨fun _ => some "2024-01-01T00:00:00.000Z", fun _ => some "1970-01-01T00:00:00.000Z",
   fun _ => "0.00"⟩

def cctpDemoParams : CctpNobleParams :=
  ⟨some "noble1demo", some "avalanche", some "0x1234567890abcdef1234567890abcdef12345678"⟩

def evmDemoParams : FinalEvmParams :=
  ⟨some "avalanche", some "0x1234567890abcdef1234567890abcdef12345678", none⟩

/-- The `Amount Match` annotation item Step 4 can push. -/
def amountMatchItem : TraceItem :=
  ⟨"Amount Match", some "Matches expected base-unit amount", none⟩

/-- C9's claim-side decoded transfer amount: the parsed amount of the first
address-matching Transfer log whose `data` parses as a big integer (matching
logs with unparseable data are skipped, as the scan's `continue` does). -/
def decodedTransferAmount (dest : String) (logs : List ReceiptLog) : Option Int :=
  logs.findSome? (fun log =>
    if transferLogMatches dest log then log.data.bind (fun d => jsBigIntOfString d)
    else none)

/-- The receipt logs Step 4 scans for the selected transaction (empty when
the receipt fetch fails or carries no logs). -/
def receiptLogsOf (receiptOracle : String → Option ReceiptResp) (evmTx : EvmTx) :
    List ReceiptLog :=
  match (receiptOracle (jsStringOpt evmTx.hash)).bind (fun r => r.result) with
  | some rec => rec.logs.getD []
  | none => []

def evmDemoTx : EvmTx :=
  ⟨some "0xDEMOTX", some "0xfrom", some "0xto", some "0", some "100", some "1700000000",
   some "execute(bytes)", some "21000", some "1000000000", some "10"⟩

def evmDemoReceiptOracle : String → Option ReceiptResp := fun _ =>
  some ⟨some ⟨some [⟨some [transferTopic, "0xAAA",
    "0x0000000000000000000000001234567890abcdef1234567890abcdef12345678"],
    some "0x3e8"⟩]⟩⟩

def evmDemoParamsExp : FinalEvmParams :=
  ⟨some "avalanche", some "0x1234567890abcdef1234567890abcdef12345678", some "1000"⟩

/-- A mock GMP index returning a single record with no call/approved data
(no transaction hashes, no id). -/
def axelarEmptyRecordOracle : GmpSearchBody → Option GmpResp := fun _ =>
  some ⟨some [⟨none, none, none⟩]⟩

/-- The payload Step 3 produces for `cctpDemoTx` under `rtIsoDemo`. -/
def cctpDemoPayload : CctpNoblePayload :=
  ⟨"CCTP on Noble", true, some "NOBLEHASH", some "1000000", some "uusdc",
   some ⟨"NOBLEHASH", 100, 0, "2024-01-01T00:00:00.000Z",
     "https://www.mintscan.io/noble/txs/NOBLEHASH"⟩,
   [⟨"Noble CCTP Tx", some "NOBLEHASH", some "https://www.mintscan.io/noble/txs/NOBLEHASH"⟩,
    ⟨"Destination EVM", some "0x1234567890abcdef1234567890abcdef12345678", none⟩,
    ⟨"Destination Domain", some "1", none⟩,
    ⟨"Amount", some "1000000 uusdc", none⟩],
   none⟩

/-! ## Generic helper lemmas -/

theorem find?_first_of_split {α : Type} (p : α → Bool) (pre post : List α) (a : α)
    (hpre : ∀ x ∈ pre, p x = false) (ha : p a = true) :
    (pre ++ a :: post).find? p = some a := by
  induction pre with
  | nil => simp [List.find?_cons, ha]
  | cons x xs ih =>
    have hx := hpre x (by simp)
    simp only [List.cons_append, List.find?_cons, hx]
    exact ih (fun y hy => hpre y (by simp [hy]))

theorem dropWhile_idem {α : Type} (p : α → Bool) (l : List α) :
    List.dropWhile p (List.dropWhile p l) = List.dropWhile p l := by
  induction l with
  | nil => rfl
  | cons c l ih =>
    by_cases h : p c
    · simp [List.dropWhile_cons, h, ih]
    · simp [List.dropWhile_cons, h]

theorem dropWhile_eq_self_of_head {α : Type} (p : α → Bool) (c : α) (l : List α)
    (h : p c = false) : List.dropWhile p (c :: l) = c :: l := by
  simp [List.dropWhile_cons, h]

theorem length_dropWhile_le' {α : Type} (p : α → Bool) (l : List α) :
    (List.dropWhile p l).length ≤ l.length := by
  induction l with
  | nil => simp
  | cons c l ih =>
    by_cases h : p c
    · rw [List.dropWhile_cons, if_pos h]
      simp only [List.length_cons]
      omega
    · rw [List.dropWhile_cons, if_neg h]

theorem trimLead_cons_of_head (c : Char) (l : List Char) (h : isJsWs c = false) :
    trimLeadList (c :: l) = c :: l :=
  dropWhile_eq_self_of_head _ _ _ h

theorem strip0x_cons_0x (l : List Char) : strip0xList ('0' :: 'x' :: l) = l := by
  show (if ('0' : Char) = '0' ∧ ('x' : Char) = 'x' then l else '0' :: 'x' :: l) = l
  rw [if_pos ⟨rfl, rfl⟩]

/-! ## Claim C6 -/

/-- **C6.** For every logs list containing no event whose type is the CCTP
`DepositForBurn` marker, `extractCctpDataFromLogs` returns both
`mintRecipient` and `destinationDomain` as `null`; the fields are never
populated from attributes of a different event type. -/
theorem extractCctp_no_marker (logs : List TxLog)
    (h : ∀ e ∈ logs.flatMap (fun l => l.events), e.type ≠ some depositForBurnType) :
    extractCctpDataFromLogs logs = ⟨none, none⟩ := by
  have hfind : (logs.flatMap (fun l => l.events)).find?
      (fun e => e.type == some depositForBurnType) = none := by
    rw [List.find?_eq_none]
    intro e he
    simpa using h e he
  unfold extractCctpDataFromLogs
  rw [hfind]

/-- Witness for C6 at a concrete logs list whose only event has a different
type but carries both attribute keys. -/
theorem extractCctp_no_marker_witness :
    (∀ e ∈ ([⟨[⟨some "coin_spent",
        [⟨some "mint_recipient", some "EjRWeJCrze8SNFZ4kKvN7xI0Vng="⟩,
         ⟨some "destination_domain", some "1"⟩]⟩]⟩] : List TxLog).flatMap
          (fun l => l.events), e.type ≠ some depositForBurnType) ∧
    extractCctpDataFromLogs
      [⟨[⟨some "coin_spent",
        [⟨some "mint_recipient", some "EjRWeJCrze8SNFZ4kKvN7xI0Vng="⟩,
         ⟨some "destination_domain", some "1"⟩]⟩]⟩] = ⟨none, none⟩ :=
  ⟨by decide, extractCctp_no_marker _ (by decide)⟩

/-! ## Claim C5 -/

theorem sextet_lt_64 {c : Char} {v : Nat} (h : sextet c = some v) : v < 64 := by
  unfold sextet at h
  by_cases hi : base64Alphabet.indexOf c < 64
  · simp only [hi, if_true, Option.some.injEq] at h
    omega
  · simp [hi] at h

theorem sextetsOf_lt_64 {cs : List Char} {vs : List Nat} (h : sextetsOf cs = some vs) :
    ∀ v ∈ vs, v < 64 := by
  induction cs generalizing vs with
  | nil =>
    simp only [sextetsOf, Option.some.injEq] at h
    subst h
    simp
  | cons c cs ih =>
    unfold sextetsOf at h
    cases hc : sextet c with
    | none => rw [hc] at h; simp at h
    | some v =>
      rw [hc] at h
      cases hcs : sextetsOf cs with
      | none => rw [hcs] at h; simp at h
      | some ws =>
        rw [hcs] at h
        simp only [Option.some.injEq] at h
        subst h
        intro u hu
        rcases List.mem_cons.mp hu with h1 | h2
        · exact h1 ▸ sextet_lt_64 hc
        · exact ih hcs u h2

theorem decodeSextets_lt_256 :
    ∀ (vs : List Nat), (∀ v ∈ vs, v < 64) → ∀ b ∈ decodeSextets vs, b < 256
  | [], _, x, hx => by simp [decodeSextets] at hx
  | [a], h, x, hx => by simp [decodeSextets] at hx
  | [a, b], h, x, hx => by
    have ha := h a (by simp)
    have hb := h b (by simp)
    simp only [decodeSextets, List.mem_singleton] at hx
    omega
  | [a, b, c], h, x, hx => by
    have ha := h a (by simp)
    have hb := h b (by simp)
    have hc := h c (by simp)
    simp only [decodeSextets, List.mem_cons, List.not_mem_nil, or_false] at hx
    rcases hx with h1 | h2 <;> omega
  | a :: b :: c :: d :: rest, h, x, hx => by
    have ha := h a (by simp)
    have hb := h b (by simp)
    have hc := h c (by simp)
    have hd := h d (by simp)
    rw [show decodeSextets (a :: b :: c :: d :: rest) =
      (a * 4 + b / 16) :: ((b % 16) * 16 + c / 4) :: ((c % 4) * 64 + d) ::
        decodeSextets rest from rfl] at hx
    rcases List.mem_cons.mp hx with h1 | hx
    · omega
    rcases List.mem_cons.mp hx with h2 | hx
    · omega
    rcases List.mem_cons.mp hx with h3 | hx
    · omega
    · exact decodeSextets_lt_256 rest (fun v hv => h v (by simp [hv])) x hx

theorem atob_bytes_lt_256 {s : String} {bytes : List Nat} (h : atob s = some bytes) :
    ∀ b ∈ bytes, b < 256 := by
  unfold atob at h
  set d0 := s.data.filter (fun c => !(isJsWs c)) with hd0
  set d := if d0.length % 4 = 0 then stripBase64Pad d0 else d0 with hd
  by_cases hlen : d.length % 4 = 1
  · simp [hlen] at h
  · simp only [hlen, if_false] at h
    cases hs : sextetsOf d with
    | none => rw [hs] at h; simp at h
    | some vs =>
      rw [hs] at h
      simp only [Option.map_some', Option.some.injEq] at h
      subst h
      exact decodeSextets_lt_256 vs (sextetsOf_lt_64 hs)

theorem digitChar_mem_hexLower : ∀ n, n < 16 → Nat.digitChar n ∈ "0123456789abcdef".data := by
  decide

theorem byteHex_mem_hexLower {b : Nat} (hb : b < 256) :
    ∀ c ∈ byteHex b, c ∈ "0123456789abcdef".data := by
  intro c hc
  unfold byteHex at hc
  rcases List.mem_cons.mp hc with h1 | hc
  · exact h1 ▸ digitChar_mem_hexLower (b / 16) (by omega)
  rcases List.mem_cons.mp hc with h2 | hc
  · exact h2 ▸ digitChar_mem_hexLower (b % 16) (by omega)
  · simp at hc

theorem length_flatMap_byteHex (l : List Nat) : (l.flatMap byteHex).length = 2 * l.length := by
  induction l with
  | nil => rfl
  | cons b l ih =>
    simp only [List.flatMap_cons, List.length_append, ih, byteHex, List.length_cons,
      List.length_nil]
    omega

/-- **C5.** `decodeMintRecipient` is a total pure function of its input (the
embedding is a Lean function, so determinism is inherent): an invalid base64
blob or a decoded blob shorter than 20 bytes yields `null` (never a thrown
exception), and a valid blob of at least 20 bytes always yields the
`0x`-prefixed 40-hex-char lowercase encoding of the blob's last 20 bytes. -/
theorem decodeMintRecipient_spec :
    (∀ s, atob s = none → decodeMintRecipient s = none) ∧
    (∀ s bytes, atob s = some bytes → bytes.length < 20 → decodeMintRecipient s = none) ∧
    (∀ s bytes, atob s = some bytes → 20 ≤ bytes.length →
      ∃ hex, decodeMintRecipient s = some hex ∧
        hex.data = '0' :: 'x' :: (bytes.drop (bytes.length - 20)).flatMap byteHex ∧
        hex.length = 42 ∧
        ∀ c ∈ hex.data.drop 2, c ∈ "0123456789abcdef".data) := by
  refine ⟨?_, ?_, ?_⟩
  · intro s h
    unfold decodeMintRecipient
    rw [h]
  · intro s bytes h hlen
    unfold decodeMintRecipient
    rw [h]
    simp [hlen]
  · intro s bytes h hlen
    refine ⟨⟨'0' :: 'x' :: (bytes.drop (bytes.length - 20)).flatMap byteHex⟩, ?_, rfl, ?_, ?_⟩
    · unfold decodeMintRecipient
      rw [h]
      simp [Nat.not_lt.mpr hlen]
    · show ('0' :: 'x' :: (bytes.drop (bytes.length - 20)).flatMap byteHex).length = 42
      have h20 : (bytes.drop (bytes.length - 20)).length = 20 := by
        rw [List.length_drop]
        omega
      rw [List.length_cons, List.length_cons, length_flatMap_byteHex, h20]
    · intro c hc
      simp only [List.drop_succ_cons, List.drop_zero] at hc
      have hmem := List.mem_flatMap.mp hc
      rcases hmem with ⟨b, hb, hcb⟩
      have hb256 : b < 256 := atob_bytes_lt_256 h b (List.mem_of_mem_drop hb)
      exact byteHex_mem_hexLower hb256 c hcb

/-- Witness for C5 at the concrete base64 blob of a 32-byte value whose last
20 bytes are `12 34 56 78 90 ab cd ef ...`, plus the short-blob and
invalid-blob cases. -/
theorem decodeMintRecipient_spec_witness :
    (atob "!" = none ∧ decodeMintRecipient "!" = none) ∧
    (atob "YWI=" = some [97, 98] ∧ [97, 98].length < 20 ∧
      decodeMintRecipient "YWI=" = none) ∧
    decodeMintRecipient "AAAAAAAAAAAAAAAAEjRWeJCrze8SNFZ4kKvN7xI0Vng=" =
      some "0x1234567890abcdef1234567890abcdef12345678" :=
  ⟨⟨by decide, decodeMintRecipient_spec.1 "!" (by decide)⟩,
   ⟨by decide, by decide, decodeMintRecipient_spec.2.1 "YWI=" [97, 98] (by decide) (by decide)⟩,
   by decide⟩

/-! ## Claim C3 -/

theorem toNat_ofNat_valid {m : Nat} (h1 : 97 ≤ m) (h2 : m ≤ 122) :
    (Char.ofNat m).toNat = m := by
  unfold Char.ofNat
  split
  · rfl
  · omega

theorem lowerChar_toNat_of_upper {c : Char} (h : 65 ≤ c.toNat ∧ c.toNat ≤ 90) :
    (lowerChar c).toNat = c.toNat + 32 := by
  rw [lowerChar, if_pos h]
  exact toNat_ofNat_valid (by omega) (by omega)

theorem lowerChar_eq_self_of_not_upper {c : Char} (h : ¬(65 ≤ c.toNat ∧ c.toNat ≤ 90)) :
    lowerChar c = c := by
  rw [lowerChar, if_neg h]

theorem lowerChar_idem (c : Char) : lowerChar (lowerChar c) = lowerChar c := by
  by_cases h : 65 ≤ c.toNat ∧ c.toNat ≤ 90
  · have ht : (lowerChar c).toNat = c.toNat + 32 := lowerChar_toNat_of_upper h
    exact lowerChar_eq_self_of_not_upper (by omega)
  · have he := lowerChar_eq_self_of_not_upper h
    rw [he]
    exact he

theorem isJsWs_eq_false_of_toNat {c : Char} (h : 33 ≤ c.toNat) : isJsWs c = false := by
  have hne : ∀ d : Char, d.toNat < 33 → c ≠ d := by
    intro d hd he
    subst he
    omega
  have h1 := hne ' ' (by decide)
  have h2 := hne '\t' (by decide)
  have h3 := hne '\n' (by decide)
  have h4 := hne '\r' (by decide)
  have h5 := hne '\x0b' (by decide)
  have h6 := hne '\x0c' (by decide)
  simp [isJsWs, h1, h2, h3, h4, h5, h6]

theorem isJsWs_lowerChar (c : Char) : isJsWs (lowerChar c) = isJsWs c := by
  by_cases h : 65 ≤ c.toNat ∧ c.toNat ≤ 90
  · have ht := lowerChar_toNat_of_upper h
    rw [isJsWs_eq_false_of_toNat (by omega), isJsWs_eq_false_of_toNat (c := c) (by omega)]
  · rw [lowerChar_eq_self_of_not_upper h]

theorem lowerList_idem (l : List Char) : lowerList (lowerList l) = lowerList l := by
  unfold lowerList
  rw [List.map_map]
  have hc : lowerChar ∘ lowerChar = lowerChar := funext lowerChar_idem
  rw [hc]

theorem trimLead_lowerList (l : List Char) :
    trimLeadList (lowerList l) = lowerList (trimLeadList l) := by
  unfold trimLeadList lowerList
  rw [List.dropWhile_map]
  have hc : (isJsWs ∘ lowerChar) = isJsWs := funext isJsWs_lowerChar
  rw [hc]

theorem trimTrail_lowerList (l : List Char) :
    trimTrailList (lowerList l) = lowerList (trimTrailList l) := by
  unfold trimTrailList lowerList
  rw [← List.map_reverse, List.dropWhile_map]
  have hc : (isJsWs ∘ lowerChar) = isJsWs := funext isJsWs_lowerChar
  rw [hc, List.map_reverse]

theorem trimList_lowerList (l : List Char) :
    trimList (lowerList l) = lowerList (trimList l) := by
  unfold trimList
  rw [trimLead_lowerList, trimTrail_lowerList]

theorem trimLead_idem (l : List Char) :
    trimLeadList (trimLeadList l) = trimLeadList l :=
  dropWhile_idem _ _

theorem trimTrail_idem (l : List Char) :
    trimTrailList (trimTrailList l) = trimTrailList l := by
  unfold trimTrailList
  rw [List.reverse_reverse, dropWhile_idem]

theorem trimLead_of_trimTrail (l : List Char) (h : trimLeadList l = l) :
    trimLeadList (trimTrailList l) = trimTrailList l := by
  have hpre : trimTrailList l <+: l := by
    have hsuf : l.reverse.dropWhile isJsWs <:+ l.reverse := List.dropWhile_suffix _
    have := List.reverse_prefix.mpr hsuf
    rwa [List.reverse_reverse] at this
  rcases hpre with ⟨t, ht⟩
  cases hq : trimTrailList l with
  | nil => simp [trimLeadList]
  | cons c m =>
    apply dropWhile_eq_self_of_head
    have hl : l = c :: (m ++ t) := by
      rw [← ht, hq]
      simp
    by_contra hc
    rw [Bool.not_eq_false] at hc
    unfold trimLeadList at h
    rw [hl, List.dropWhile_cons, if_pos hc] at h
    have hle := length_dropWhile_le' isJsWs (m ++ t)
    have hlen := congrArg List.length h
    simp only [List.length_cons, List.length_append] at hlen
    simp only [List.length_append] at hle
    omega

theorem trimList_idem (l : List Char) : trimList (trimList l) = trimList l := by
  unfold trimList
  rw [trimLead_of_trimTrail _ (trimLead_idem l), trimTrail_idem]

theorem trimTrail_cons (c : Char) (l : List Char) (h : isJsWs c = false) :
    trimTrailList (c :: l) = c :: trimTrailList l := by
  unfold trimTrailList
  rw [List.reverse_cons, List.dropWhile_append]
  by_cases he : (l.reverse.dropWhile isJsWs).isEmpty
  · rw [if_pos he]
    have h2 : l.reverse.dropWhile isJsWs = [] := by
      cases hcase : l.reverse.dropWhile isJsWs
      · rfl
      · rw [hcase] at he; simp at he
    rw [h2]
    simp [List.dropWhile_cons, h]
  · rw [if_neg he, List.reverse_append]
    simp

theorem strip0x_eq_self {l : List Char} (h : List.isPrefixOf ['0', 'x'] l = false) :
    strip0xList l = l := by
  match l with
  | [] => rfl
  | [c] => rfl
  | c1 :: c2 :: rest =>
    show (if c1 = '0' ∧ c2 = 'x' then rest else c1 :: c2 :: rest) = c1 :: c2 :: rest
    rw [if_neg]
    intro hcon
    rcases hcon with ⟨h1, h2⟩
    subst h1
    subst h2
    simp [List.isPrefixOf] at h

/-- Core stability fact: on a trimmed, lowercased list that does not hide a
second `0x` prefix or whitespace behind its `0x` prefix, stripping the prefix
yields a normalization fixed point. -/
theorem normalizeList_stable (t : List Char)
    (htrim : trimList t = t) (hlow : lowerList t = t)
    (hshape : (List.isPrefixOf ['0', 'x'] t &&
      (List.isPrefixOf ['0', 'x'] (t.drop 2) || (t.drop 2).head?.any isJsWs)) = false) :
    strip0xList (lowerList (trimList (strip0xList t))) = strip0xList t := by
  by_cases hp : List.isPrefixOf ['0', 'x'] t = true
  · obtain ⟨u, hu⟩ := List.isPrefixOf_iff_prefix.mp hp
    have ht : t = '0' :: 'x' :: u := hu.symm
    subst ht
    rw [hp] at hshape
    simp only [Bool.true_and, Bool.or_eq_false_iff] at hshape
    have hpu : List.isPrefixOf ['0', 'x'] (('0' :: 'x' :: u).drop 2) = false := hshape.1
    have hwu : (('0' :: 'x' :: u).drop 2).head?.any isJsWs = false := hshape.2
    simp only [List.drop_succ_cons, List.drop_zero] at hpu hwu
    rw [strip0x_cons_0x]
    -- trimTrailList u = u
    have hlead : trimLeadList ('0' :: 'x' :: u) = '0' :: 'x' :: u :=
      trimLead_cons_of_head _ _ (by decide)
    have htr : trimTrailList ('0' :: 'x' :: u) = '0' :: 'x' :: u := by
      have := htrim
      unfold trimList at this
      rwa [hlead] at this
    rw [trimTrail_cons _ _ (by decide), trimTrail_cons _ _ (by decide)] at htr
    have htu : trimTrailList u = u := by
      injection htr with _ htr
      injection htr
    -- trimLeadList u = u
    have hlu : trimLeadList u = u := by
      cases u with
      | nil => rfl
      | cons c m =>
        apply dropWhile_eq_self_of_head
        simpa using hwu
    -- lowerList u = u
    have hlowu : lowerList u = u := by
      unfold lowerList at hlow ⊢
      rw [List.map_cons, List.map_cons] at hlow
      injection hlow with _ hlow
      injection hlow
    have htrimu : trimList u = u := by
      unfold trimList
      rw [hlu, htu]
    rw [htrimu, hlowu, strip0x_eq_self hpu]
  · rw [Bool.not_eq_true] at hp
    rw [strip0x_eq_self hp, htrim, hlow, strip0x_eq_self hp]

/-- **C3 counterexample.** Normalization is not idempotent on every string:
`normalize("0x0xAB") = "0xab"` but `normalize(normalize("0x0xAB")) = "ab"`. -/
theorem normalizeAddress_not_idempotent :
    normalizeAddress "0x0xAB" = "0xab" ∧
    normalizeAddress (normalizeAddress "0x0xAB") = "ab" ∧
    normalizeAddress (normalizeAddress "0x0xAB") ≠ normalizeAddress "0x0xAB" :=
  ⟨by decide, by decide, by decide⟩

/-- **C3 (amended).** Address normalization is idempotent except on strings
whose trimmed, lowercased form hides another `0x` prefix or whitespace behind
a leading `0x` (e.g. `"0x0xAB"`); it is fully case-insensitive (strings with
the same lowercasing normalize identically, so `normalize("0xABC") =
normalize("abc")`); and prepending `0x` to an address-like string (no leading
whitespace, no `0x` prefix of its own) does not change the result. -/
theorem normalizeAddress_amended :
    (∀ s : String, normalizeUnstable s = false →
      normalizeAddress (normalizeAddress s) = normalizeAddress s) ∧
    (∀ s t : String, jsToLower s = jsToLower t →
      normalizeAddress s = normalizeAddress t) ∧
    (∀ s : String, trimLeadList s.data = s.data →
      List.isPrefixOf ['0', 'x'] (lowerList (trimList s.data)) = false →
      normalizeAddress ("0x" ++ s) = normalizeAddress s) := by
  refine ⟨?_, ?_, ?_⟩
  · intro s h
    unfold normalizeUnstable at h
    apply String.ext
    show strip0xList (lowerList (trimList (strip0xList (lowerList (trimList s.data))))) =
      strip0xList (lowerList (trimList s.data))
    apply normalizeList_stable
    · rw [trimList_lowerList, trimList_idem]
    · rw [lowerList_idem]
    · exact h
  · intro s t h
    have hd : lowerList s.data = lowerList t.data := congrArg String.data h
    apply String.ext
    show strip0xList (lowerList (trimList s.data)) = strip0xList (lowerList (trimList t.data))
    rw [← trimList_lowerList, hd, trimList_lowerList]
  · intro s hlead h0x
    apply String.ext
    show strip0xList (lowerList (trimList (("0x" ++ s).data))) =
      strip0xList (lowerList (trimList s.data))
    have hdata : ("0x" ++ s).data = '0' :: 'x' :: s.data := rfl
    rw [hdata]
    have h1 : trimList ('0' :: 'x' :: s.data) = '0' :: 'x' :: trimTrailList s.data := by
      unfold trimList
      rw [trimLead_cons_of_head _ _ (by decide),
        trimTrail_cons _ _ (by decide), trimTrail_cons _ _ (by decide)]
    rw [h1]
    have h2 : trimList s.data = trimTrailList s.data := by
      unfold trimList
      rw [hlead]
    rw [h2] at h0x ⊢
    show strip0xList (lowerChar '0' :: lowerChar 'x' :: lowerList (trimTrailList s.data)) = _
    rw [show lowerChar '0' = '0' from by decide, show lowerChar 'x' = 'x' from by decide,
      strip0x_cons_0x, strip0x_eq_self h0x]

/-- Witness for C3 (amended) at concrete strings. -/
theorem normalizeAddress_amended_witness :
    (normalizeUnstable "0xAbC" = false ∧
      normalizeAddress (normalizeAddress "0xAbC") = normalizeAddress "0xAbC") ∧
    (jsToLower "0xABC" = jsToLower "0xabc" ∧
      normalizeAddress "0xABC" = normalizeAddress "0xabc") ∧
    (trimLeadList "abc".data = "abc".data ∧
      List.isPrefixOf ['0', 'x'] (lowerList (trimList "abc".data)) = false ∧
      normalizeAddress ("0x" ++ "abc") = normalizeAddress "abc") :=
  ⟨⟨by decide, normalizeAddress_amended.1 "0xAbC" (by decide)⟩,
   ⟨by decide, normalizeAddress_amended.2.1 "0xABC" "0xabc" (by decide)⟩,
   ⟨by decide, by decide, normalizeAddress_amended.2.2 "abc" (by decide) (by decide)⟩⟩

/-! ## Claim C7 -/

theorem probeFactories_first_hit (oracle : GmpSearchBody → Option GmpResp)
    (size : Nat) (addr chain : String) (pre : List String) (f : String) (post : List String)
    (hpre : ∀ g ∈ pre, gmpNonEmpty (oracle ⟨size, addr, g, chain⟩) = false)
    (hf : gmpNonEmpty (oracle ⟨size, addr, f, chain⟩) = true) :
    probeFactories oracle size addr chain (pre ++ f :: post) =
      ((pre ++ [f]).map (fun g => (⟨size, addr, g, chain⟩ : GmpSearchBody)),
       oracle ⟨size, addr, f, chain⟩) := by
  induction pre with
  | nil =>
    simp [probeFactories, hf]
  | cons g gs ih =>
    have hg := hpre g (by simp)
    have ih2 := ih (fun y hy => hpre y (by simp [hy]))
    simp only [List.cons_append, probeFactories, hg, Bool.false_eq_true, if_false,
      List.append_eq, ih2, List.map_cons]

theorem probeFactories_all_empty (oracle : GmpSearchBody → Option GmpResp)
    (size : Nat) (addr chain : String) (l : List String)
    (h : ∀ g ∈ l, gmpNonEmpty (oracle ⟨size, addr, g, chain⟩) = false) :
    probeFactories oracle size addr chain l =
      (l.map (fun g => (⟨size, addr, g, chain⟩ : GmpSearchBody)), none) := by
  induction l with
  | nil => rfl
  | cons g gs ih =>
    have hg := h g (by simp)
    have ih2 := ih (fun y hy => h y (by simp [hy]))
    simp only [probeFactories, hg, Bool.false_eq_true, if_false, List.append_eq, ih2,
      List.map_cons]

/-- **C7.** Step 1 probes the configured factory contracts in order, issuing
one `searchGMP` POST per contract until the first non-empty result: the
probed-body list is exactly the configured prefix up to and including the
first hit, the handler's result is built from that hit's first record, and
when every contract yields an empty (or failed) response the probe covers
every contract exactly once and the handler reports `found=false`. -/
theorem axelarGmp_probe_spec :
    (∀ oracle size addr chain pre f post,
      (∀ g ∈ pre, gmpNonEmpty (oracle ⟨size, addr, g, chain⟩) = false) →
      gmpNonEmpty (oracle ⟨size, addr, f, chain⟩) = true →
      probeFactories oracle size addr chain (pre ++ f :: post) =
        ((pre ++ [f]).map (fun g => (⟨size, addr, g, chain⟩ : GmpSearchBody)),
         oracle ⟨size, addr, f, chain⟩)) ∧
    (∀ oracle size addr chain l,
      (∀ g ∈ l, gmpNonEmpty (oracle ⟨size, addr, g, chain⟩) = false) →
      probeFactories oracle size addr chain l =
        (l.map (fun g => (⟨size, addr, g, chain⟩ : GmpSearchBody)), none)) ∧
    (∀ rt params oracle ci pre f post first rest,
      jsTruthy params.destChain = true → jsTruthy params.agoricAddress = true →
      getChainInfo (canonicalizeChain (params.destChain.getD "")) = some ci →
      ci.factoryContracts = pre ++ f :: post →
      (∀ g ∈ pre, gmpNonEmpty (oracle ⟨params.size, params.agoricAddress.getD "", g,
        canonicalizeChain (params.destChain.getD "")⟩) = false) →
      oracle ⟨params.size, params.agoricAddress.getD "", f,
        canonicalizeChain (params.destChain.getD "")⟩ = some ⟨some (first :: rest)⟩ →
      axelarGmpTxHandler rt params oracle = axelarGmpFound rt ci first) ∧
    (∀ rt params oracle ci,
      jsTruthy params.destChain = true → jsTruthy params.agoricAddress = true →
      getChainInfo (canonicalizeChain (params.destChain.getD "")) = some ci →
      ci.factoryContracts ≠ [] →
      (∀ g ∈ ci.factoryContracts, gmpNonEmpty (oracle ⟨params.size,
        params.agoricAddress.getD "", g,
        canonicalizeChain (params.destChain.getD "")⟩) = false) →
      axelarGmpTxHandler rt params oracle =
        .success ⟨some "step1", "Axelar GMP (make account)", false,
          some "No GMP transactions found", none, []⟩) := by
  refine ⟨probeFactories_first_hit, probeFactories_all_empty, ?_, ?_⟩
  · intro rt params oracle ci pre f post first rest h1 h2 hci hsplit hpre horacle
    have hf : gmpNonEmpty (oracle ⟨params.size, params.agoricAddress.getD "", f,
        canonicalizeChain (params.destChain.getD "")⟩) = true := by
      rw [horacle]
      simp [gmpNonEmpty]
    unfold axelarGmpTxHandler
    simp only [h1, h2, Bool.and_self, Bool.not_true, Bool.false_eq_true, if_false, hci, hsplit]
    rw [if_neg (by simp)]
    rw [probeFactories_first_hit _ _ _ _ _ _ _ hpre hf]
    simp [horacle]
  · intro rt params oracle ci h1 h2 hci hne hempty
    unfold axelarGmpTxHandler
    simp only [h1, h2, Bool.and_self, Bool.not_true, Bool.false_eq_true, if_false, hci]
    rw [if_neg (by simpa using hne)]
    rw [probeFactories_all_empty _ _ _ _ _ hempty]

/-- Witness for C7 at a concrete oracle that is empty for the first Avalanche
factory contract and non-empty for the second. -/
theorem axelarGmp_probe_spec_witness :
    axelarGmpTxHandler rtTrivial ⟨some "avalanche", some "agoric1demo", 1⟩ axelarDemoOracle =
      axelarGmpFound rtTrivial avalancheInfo ⟨none, none, none⟩ :=
  axelarGmp_probe_spec.2.2.1 rtTrivial ⟨some "avalanche", some "agoric1demo", 1⟩
    axelarDemoOracle avalancheInfo ["0x647Ead1a35dbC2b0160Cbe6e565f25C4915a125F"]
    "0x13cA288486f2bb6B3619c5fd6A2917Ec98a41E7f" [] ⟨none, none, none⟩ []
    (by decide) (by decide) (by decide) (by decide) (by decide) (by decide)

/-! ## Claim C8 -/

theorem scanFundingTxs_first_match (parse : String → Option PacketData) (noble : String)
    (pre : List AgoricTx) (tx : AgoricTx) (post : List AgoricTx)
    (hpre : ∀ t ∈ pre, extractReceiverFromLogs parse (t.logs.getD []) ≠ some noble)
    (htx : extractReceiverFromLogs parse (tx.logs.getD []) = some noble) :
    scanFundingTxs parse noble (pre ++ tx :: post) = (pre ++ [tx], some tx) := by
  induction pre with
  | nil => simp [scanFundingTxs, htx]
  | cons t ts ih =>
    have ht : (extractReceiverFromLogs parse (t.logs.getD []) == some noble) = false := by
      simpa using hpre t (by simp)
    have ih2 := ih (fun y hy => hpre y (by simp [hy]))
    simp only [List.cons_append, scanFundingTxs, ht, Bool.false_eq_true, if_false,
      List.append_eq, ih2]

theorem scanFundingTxs_no_match (parse : String → Option PacketData) (noble : String)
    (l : List AgoricTx)
    (h : ∀ t ∈ l, extractReceiverFromLogs parse (t.logs.getD []) ≠ some noble) :
    scanFundingTxs parse noble l = (l, none) := by
  induction l with
  | nil => rfl
  | cons t ts ih =>
    have ht : (extractReceiverFromLogs parse (t.logs.getD []) == some noble) = false := by
      simpa using h t (by simp)
    have ih2 := ih (fun y hy => h y (by simp [hy]))
    simp only [scanFundingTxs, ht, Bool.false_eq_true, if_false, List.append_eq, ih2]

/-- **C8.** Step 2 scans the fetched page in order and matches the first
transaction whose extracted receiver equals the target Noble address under
exact string equality (the scan predicate is literal equality with the
address — no case folding or prefix stripping); the scanned prefix stops at
the match (no later transaction is visited), and with no match every
transaction is scanned and the handler reports `found=false` with the
page-limit message. -/
theorem agoricFunding_first_match_spec :
    (∀ parse noble pre tx post,
      (∀ t ∈ pre, extractReceiverFromLogs parse (t.logs.getD []) ≠ some noble) →
      extractReceiverFromLogs parse (tx.logs.getD []) = some noble →
      scanFundingTxs parse noble (pre ++ tx :: post) = (pre ++ [tx], some tx)) ∧
    (∀ parse noble l,
      (∀ t ∈ l, extractReceiverFromLogs parse (t.logs.getD []) ≠ some noble) →
      scanFundingTxs parse noble l = (l, none)) ∧
    (∀ parse nobleOracle params response pre tx post,
      jsTruthy params.agoricAddress = true → jsTruthy params.nobleAddress = true →
      pageTxs response = pre ++ tx :: post →
      (∀ t ∈ pre,
        extractReceiverFromLogs parse (t.logs.getD []) ≠ some (params.nobleAddress.getD "")) →
      extractReceiverFromLogs parse (tx.logs.getD []) = some (params.nobleAddress.getD "") →
      agoricFundingTxHandler parse nobleOracle params response =
        .success ⟨"Funding of Noble ICA + IBC ACK", true,
          fundingFoundItems nobleOracle (params.nobleAddress.getD "") tx, none⟩) ∧
    (∀ parse nobleOracle params response,
      jsTruthy params.agoricAddress = true → jsTruthy params.nobleAddress = true →
      (∀ t ∈ pageTxs response,
        extractReceiverFromLogs parse (t.logs.getD []) ≠ some (params.nobleAddress.getD "")) →
      agoricFundingTxHandler parse nobleOracle params response =
        .success ⟨"Funding of Noble ICA + IBC ACK", false, [],
          some ("No relevant IBC acknowledgment transactions found in the last " ++
            toString (pageTxs response).length ++ " transactions (Mintscan limit: 20)")⟩) := by
  refine ⟨scanFundingTxs_first_match, scanFundingTxs_no_match, ?_, ?_⟩
  · intro parse nobleOracle params response pre tx post h1 h2 hpage hpre htx
    unfold agoricFundingTxHandler
    simp only [h1, h2, Bool.and_self, Bool.not_true, Bool.false_eq_true, if_false, hpage]
    rw [scanFundingTxs_first_match _ _ _ _ _ hpre htx]
  · intro parse nobleOracle params response h1 h2 hnone
    unfold agoricFundingTxHandler
    simp only [h1, h2, Bool.and_self, Bool.not_true, Bool.false_eq_true, if_false]
    rw [scanFundingTxs_no_match _ _ _ hnone]

/-- Witness for C8 at a concrete page whose only transaction carries the
target receiver in a `recv_packet` `packet_data` attribute. -/
theorem agoricFunding_first_match_spec_witness :
    agoricFundingTxHandler fundingDemoParse (fun _ _ => none)
      ⟨some "agoric1demo", some "noble1abc"⟩ (some ⟨some [fundingDemoTx], none⟩) =
      .success ⟨"Funding of Noble ICA + IBC ACK", true,
        fundingFoundItems (fun _ _ => none) "noble1abc" fundingDemoTx, none⟩ :=
  agoricFunding_first_match_spec.2.2.1 fundingDemoParse (fun _ _ => none)
    ⟨some "agoric1demo", some "noble1abc"⟩ (some ⟨some [fundingDemoTx], none⟩)
    [] fundingDemoTx []
    (by decide) (by decide) (by decide) (by decide) (by decide)

/-! ## Claim C4 -/

/-- The code's match test (`String(destinationDomain) === String(expectedDomain)`
and normalized-address equality with a `null` recipient defaulted to `''`)
coincides with the claim's match predicate whenever the profile's domain is
not the literal string `"null"` and the target normalizes to a non-empty
string — both hold for every configured chain and schema-valid address. -/
theorem cctpTxMatches_iff (domain target : String) (tx : NobleTx)
    (hdom : domain ≠ "null") (htgt : normalizeAddress target ≠ "") :
    (cctpTxMatches domain target tx = true) ↔ cctpClaimMatches domain target tx := by
  unfold cctpTxMatches cctpClaimMatches
  simp only [Bool.and_eq_true, beq_iff_eq]
  constructor
  · rintro ⟨hd, ha⟩
    refine ⟨?_, ?_⟩
    · cases hm : (extractCctpDataFromLogs (tx.logs.getD [])).mintRecipient with
      | none =>
        rw [hm] at ha
        simp only [Option.getD_none] at ha
        have h0 : normalizeAddress "" = "" := by decide
        rw [h0] at ha
        exact absurd ha.symm htgt
      | some r =>
        rw [hm] at ha
        simp only [Option.getD_some] at ha
        exact ⟨r, rfl, ha⟩
    · cases hdd : (extractCctpDataFromLogs (tx.logs.getD [])).destinationDomain with
      | none =>
        rw [hdd] at hd
        exact absurd hd.symm hdom
      | some d =>
        rw [hdd] at hd
        simp only [jsStringNull] at hd
        rw [hd]
  · rintro ⟨⟨r, hr, hra⟩, hdd⟩
    rw [hr, hdd]
    simp [jsStringNull, hra]

/-- **C4.** Step 3 returns `found=true` for the first transaction (in
provider order) whose decoded mint recipient equals the target EVM address
after normalization and whose extracted destination domain equals the
resolved profile's domain id, with the result carrying that transaction's
hash and the burn amount/denom of its first `MsgBurn` message; with no
matching transaction it returns `found=false`. -/
theorem cctpNoble_first_match_spec :
    (∀ rt params response ci pre tx post,
      jsTruthy params.nobleAddress = true → jsTruthy params.destChain = true →
      jsTruthy params.destinationEvmAddress = true →
      getChainInfo (canonicalizeChain (params.destChain.getD "")) = some ci →
      ci.domain ≠ "null" →
      normalizeAddress (params.destinationEvmAddress.getD "") ≠ "" →
      pageTxs response = pre ++ tx :: post →
      (∀ t ∈ pre, ¬ cctpClaimMatches ci.domain (params.destinationEvmAddress.getD "") t) →
      cctpClaimMatches ci.domain (params.destinationEvmAddress.getD "") tx →
      (cctpNobleTxHandler rt params response =
          cctpNobleFound rt (params.destinationEvmAddress.getD "") tx ∧
        ∀ iso, rt.dateIso tx.timestamp = some iso →
          ∃ p, cctpNobleTxHandler rt params response = .success p ∧ p.found = true ∧
            p.txHash = some (jsStringOpt tx.txhash) ∧
            p.burnAmount = (cctpBurnMsg (tx.messages.getD [])).bind
              (fun m => m.amount.bind (fun a => a.amount)) ∧
            p.burnDenom = (cctpBurnMsg (tx.messages.getD [])).bind
              (fun m => m.amount.bind (fun a => a.denom)))) ∧
    (∀ rt params response ci,
      jsTruthy params.nobleAddress = true → jsTruthy params.destChain = true →
      jsTruthy params.destinationEvmAddress = true →
      getChainInfo (canonicalizeChain (params.destChain.getD "")) = some ci →
      ci.domain ≠ "null" →
      normalizeAddress (params.destinationEvmAddress.getD "") ≠ "" →
      (∀ t ∈ pageTxs response,
        ¬ cctpClaimMatches ci.domain (params.destinationEvmAddress.getD "") t) →
      cctpNobleTxHandler rt params response =
        .success ⟨"CCTP on Noble", false, none, none, none, none, [],
          some "No matching CCTP burn transactions found"⟩) := by
  constructor
  · intro rt params response ci pre tx post h1 h2 h3 hci hdom htgt hpage hpre htx
    have hfind : (pageTxs response).find?
        (cctpTxMatches ci.domain (params.destinationEvmAddress.getD "")) = some tx := by
      rw [hpage]
      apply find?_first_of_split
      · intro t ht
        cases hb : cctpTxMatches ci.domain (params.destinationEvmAddress.getD "") t
        · rfl
        · exact absurd ((cctpTxMatches_iff _ _ _ hdom htgt).mp hb) (hpre t ht)
      · exact (cctpTxMatches_iff _ _ _ hdom htgt).mpr htx
    have hmain : cctpNobleTxHandler rt params response =
        cctpNobleFound rt (params.destinationEvmAddress.getD "") tx := by
      unfold cctpNobleTxHandler
      simp only [h1, h2, h3, Bool.and_self, Bool.and_true, Bool.true_and, Bool.not_true,
        Bool.false_eq_true, if_false, hci]
      rw [hfind]
    refine ⟨hmain, ?_⟩
    intro iso hiso
    rw [hmain]
    unfold cctpNobleFound
    simp only [hiso]
    exact ⟨_, rfl, rfl, rfl, rfl, rfl⟩
  · intro rt params response ci h1 h2 h3 hci hdom htgt hnone
    have hfind : (pageTxs response).find?
        (cctpTxMatches ci.domain (params.destinationEvmAddress.getD "")) = none := by
      rw [List.find?_eq_none]
      intro t ht
      intro hb
      exact absurd ((cctpTxMatches_iff _ _ _ hdom htgt).mp hb) (hnone t ht)
    unfold cctpNobleTxHandler
    simp only [h1, h2, h3, Bool.and_self, Bool.and_true, Bool.true_and, Bool.not_true,
      Bool.false_eq_true, if_false, hci]
    rw [hfind]

/-- Witness for C4 at the spec's end-to-end Step 3 scenario: one burn event
with domain `"1"` and a recipient blob ending in the target address. -/
theorem cctpNoble_first_match_spec_witness :
    ∃ p, cctpNobleTxHandler rtIsoDemo cctpDemoParams (some ⟨some [cctpDemoTx], none⟩) =
        .success p ∧ p.found = true ∧
      p.txHash = some (jsStringOpt cctpDemoTx.txhash) ∧
      p.burnAmount = (cctpBurnMsg (cctpDemoTx.messages.getD [])).bind
        (fun m => m.amount.bind (fun a => a.amount)) ∧
      p.burnDenom = (cctpBurnMsg (cctpDemoTx.messages.getD [])).bind
        (fun m => m.amount.bind (fun a => a.denom)) :=
  ((cctpNoble_first_match_spec.1 rtIsoDemo cctpDemoParams (some ⟨some [cctpDemoTx], none⟩)
      avalancheInfo [] cctpDemoTx []
      (by decide) (by decide) (by decide) (by decide) (by decide) (by decide) (by decide)
      (by simp)
      ⟨⟨"0x1234567890abcdef1234567890abcdef12345678", by decide, by decide⟩,
        by decide⟩).2
    "2024-01-01T00:00:00.000Z" rfl)

/-! ## Claim C10 -/

theorem etherscanPrefixed_ne (m : String) :
    "Etherscan error: " ++ m ≠ "Error tracing final EVM transaction: Invalid time value" := by
  intro h
  have hd : ("Etherscan error: ".data ++ m.data)[1]? =
      ("Error tracing final EVM transaction: Invalid time value".data)[1]? :=
    congrArg (fun s => s.data[1]?) h
  rw [List.getElem?_append_left (by decide)] at hd
  exact absurd hd (by decide)

theorem finalEvmFound_ne_etherscanError (rt : JsDate) (ci : ChainInfo)
    (expectedAmount : Option String) (dest : String) (evmTx : EvmTx)
    (receiptOracle : String → Option ReceiptResp) (m : String) :
    finalEvmFound rt ci expectedAmount dest evmTx receiptOracle ≠
      .error ("Etherscan error: " ++ m) := by
  unfold finalEvmFound
  split
  · intro h
    injection h with h2
    exact etherscanPrefixed_ne m h2.symm
  · split
    · intro h
      injection h with h2
      exact etherscanPrefixed_ne m h2.symm
    · intro h
      exact StepResponse.noConfusion h

/-- **C10.** For a status-`"0"` Etherscan response whose `result` is an
array, Step 4 does not report an Etherscan upstream error: an empty array
yields a `found=false` success with message `No execute* transactions found`,
a non-empty array can only yield a success or a generic tracing error —
never an `Etherscan error:` result — and only a status-`"0"` response with a
non-array `result` yields the Etherscan error result. -/
theorem finalEvm_status0_spec :
    (∀ rt params apiKey resp receiptOracle ci,
      jsTruthy params.destChain = true → jsTruthy params.destinationEvmAddress = true →
      getChainInfo (canonicalizeChain (params.destChain.getD "")) = some ci →
      jsTruthy apiKey = true →
      resp.result = .arr [] →
      finalEvmTxHandler rt params apiKey (some resp) receiptOracle =
        .success ⟨some "step4", "Final EVM Transaction", false, none, none, none, [],
          some "No execute* transactions found"⟩) ∧
    (∀ rt params apiKey resp receiptOracle ci txs,
      jsTruthy params.destChain = true → jsTruthy params.destinationEvmAddress = true →
      getChainInfo (canonicalizeChain (params.destChain.getD "")) = some ci →
      jsTruthy apiKey = true →
      resp.result = .arr txs →
      ∀ m, finalEvmTxHandler rt params apiKey (some resp) receiptOracle ≠
        .error ("Etherscan error: " ++ m)) ∧
    (∀ rt params apiKey resp receiptOracle ci,
      jsTruthy params.destChain = true → jsTruthy params.destinationEvmAddress = true →
      getChainInfo (canonicalizeChain (params.destChain.getD "")) = some ci →
      jsTruthy apiKey = true →
      resp.status = some "0" → resp.result.isArr = false →
      finalEvmTxHandler rt params apiKey (some resp) receiptOracle =
        .error ("Etherscan error: " ++ etherscanErrMsg resp)) := by
  refine ⟨?_, ?_, ?_⟩
  · intro rt params apiKey resp receiptOracle ci h1 h2 hci hkey hres
    unfold finalEvmTxHandler
    simp only [h1, h2, Bool.and_self, Bool.and_true, Bool.true_and, Bool.not_true,
      Bool.false_eq_true, if_false, hci, hkey, hres]
    simp [EtherscanResult.isArr, EtherscanResult.asArr, selectEvmTx]
  · intro rt params apiKey resp receiptOracle ci txs h1 h2 hci hkey hres m
    unfold finalEvmTxHandler
    simp only [h1, h2, Bool.and_self, Bool.and_true, Bool.true_and, Bool.not_true,
      Bool.false_eq_true, if_false, hci, hkey, hres]
    simp only [EtherscanResult.isArr, Bool.not_true, Bool.and_false, Bool.false_eq_true,
      if_false, EtherscanResult.asArr]
    cases hsel : selectEvmTx txs with
    | none =>
      intro h
      exact StepResponse.noConfusion h
    | some evmTx =>
      exact finalEvmFound_ne_etherscanError rt ci params.expectedAmount
        (params.destinationEvmAddress.getD "") evmTx receiptOracle m
  · intro rt params apiKey resp receiptOracle ci h1 h2 hci hkey hstatus hnotarr
    unfold finalEvmTxHandler
    simp only [h1, h2, Bool.and_self, Bool.and_true, Bool.true_and, Bool.not_true,
      Bool.false_eq_true, if_false, hci, hkey, hstatus, hnotarr]
    simp

/-- Witness for C10 at concrete Etherscan responses: an empty array under
status `"0"`, a non-empty array, and a string `result`. -/
theorem finalEvm_status0_spec_witness :
    (finalEvmTxHandler rtIsoDemo evmDemoParams (some "KEY")
        (some ⟨some "0", some "No transactions found", .arr []⟩) (fun _ => none) =
      .success ⟨some "step4", "Final EVM Transaction", false, none, none, none, [],
        some "No execute* transactions found"⟩) ∧
    (finalEvmTxHandler rtIsoDemo evmDemoParams (some "KEY")
        (some ⟨some "0", none, .arr [⟨some "0xTX", none, none, none, none, none,
          some "execute(bytes)", none, none, none⟩]⟩) (fun _ => none) ≠
      .error ("Etherscan error: " ++ "NOTOK")) ∧
    (finalEvmTxHandler rtIsoDemo evmDemoParams (some "KEY")
        (some ⟨some "0", some "NOTOK", .str "Max rate limit reached"⟩) (fun _ => none) =
      .error ("Etherscan error: " ++
        etherscanErrMsg ⟨some "0", some "NOTOK", .str "Max rate limit reached"⟩)) :=
  ⟨finalEvm_status0_spec.1 rtIsoDemo evmDemoParams (some "KEY")
      ⟨some "0", some "No transactions found", .arr []⟩ (fun _ => none) avalancheInfo
      (by decide) (by decide) (by decide) (by decide) (by decide),
   finalEvm_status0_spec.2.1 rtIsoDemo evmDemoParams (some "KEY")
      ⟨some "0", none, .arr [⟨some "0xTX", none, none, none, none, none,
        some "execute(bytes)", none, none, none⟩]⟩ (fun _ => none) avalancheInfo
      [⟨some "0xTX", none, none, none, none, none, some "execute(bytes)", none, none, none⟩]
      (by decide) (by decide) (by decide) (by decide) (by decide) "NOTOK",
   finalEvm_status0_spec.2.2 rtIsoDemo evmDemoParams (some "KEY")
      ⟨some "0", some "NOTOK", .str "Max rate limit reached"⟩ (fun _ => none) avalancheInfo
      (by decide) (by decide) (by decide) (by decide) (by decide) (by decide)⟩

/-! ## Claim C9 -/

theorem scanReceiptLogs_amountMatch (dest : String) (expected : Option String)
    (logs : List ReceiptLog) :
    ∀ tta, (amountMatchItem ∈ (scanReceiptLogs dest expected logs tta).1 ↔
      ∃ e amt, expected = some e ∧ e ≠ "" ∧ jsBigIntOfString e = some amt ∧
        decodedTransferAmount dest logs = some amt) := by
  induction logs with
  | nil =>
    intro tta
    simp [scanReceiptLogs, decodedTransferAmount]
  | cons log rest ih =>
    intro tta
    cases hm : transferLogMatches dest log with
    | false =>
      have hscan : scanReceiptLogs dest expected (log :: rest) tta =
          scanReceiptLogs dest expected rest tta := by
        simp [scanReceiptLogs, hm]
      have hdec : decodedTransferAmount dest (log :: rest) =
          decodedTransferAmount dest rest := by
        unfold decodedTransferAmount
        rw [List.findSome?_cons]
        simp [hm]
      rw [hscan, hdec]
      exact ih tta
    | true =>
      cases hp : log.data.bind (fun d => jsBigIntOfString d) with
      | none =>
        have hscan : scanReceiptLogs dest expected (log :: rest) tta =
            scanReceiptLogs dest expected rest log.data := by
          simp [scanReceiptLogs, hm, hp]
        have hdec : decodedTransferAmount dest (log :: rest) =
            decodedTransferAmount dest rest := by
          unfold decodedTransferAmount
          rw [List.findSome?_cons]
          simp [hm, hp]
        rw [hscan, hdec]
        exact ih _
      | some amt =>
        have hdec : decodedTransferAmount dest (log :: rest) = some amt := by
          unfold decodedTransferAmount
          rw [List.findSome?_cons]
          simp [hm, hp]
        rw [hdec]
        simp only [scanReceiptLogs, hm, hp]
        cases expected with
        | none => simp [amountMatchItem]
        | some e =>
          by_cases he : e = ""
          · subst he
            simp [amountMatchItem]
          · cases hbig : jsBigIntOfString e with
            | none => simp [amountMatchItem, he, hbig]
            | some v =>
              by_cases hv : amt = v
              · subst hv
                simp [amountMatchItem, he, hbig]
              · simp [amountMatchItem, he, hbig, hv]
                intro h
                exact absurd h.symm hv

theorem amountMatch_not_mem_txItems (rt : JsDate) (ci : ChainInfo) (evmTx : EvmTx)
    (l : List TraceItem) (h : finalEvmTxItems rt ci evmTx = .ok l) :
    amountMatchItem ∉ l := by
  have hni : ∀ (c : Prop) (inst : Decidable c) (a : TraceItem), a.label ≠ "Amount Match" →
      amountMatchItem ∉ (if c then [a] else []) := by
    intro c inst a hla hmem
    have ha : amountMatchItem = a := by
      revert hmem
      split
      · simp
      · simp
    exact hla (by rw [← ha]; rfl)
  unfold finalEvmTxItems at h
  by_cases ht : jsTruthy evmTx.timeStamp = true
  · rw [if_pos ht] at h
    cases hiso : rt.epochIso evmTx.timeStamp with
    | none => rw [hiso] at h; cases h
    | some iso =>
      rw [hiso] at h
      injection h with h
      subst h
      intro hmem
      simp only [List.mem_append, List.mem_singleton] at hmem
      rcases hmem with ((((hx | hx) | hx) | hx) | hx) | (hx | hx) | hx
      · exact hni _ _ _ (by intro hla; simp at hla) hx
      · exact hni _ _ _ (by intro hla; simp at hla) hx
      · exact hni _ _ _ (by intro hla; simp at hla) hx
      · exact hni _ _ _ (by intro hla; simp at hla) hx
      · have := congrArg TraceItem.label hx
        simp [amountMatchItem] at this
      · exact hni _ _ _ (by intro hla; simp at hla) hx
      · exact hni _ _ _ (by intro hla; simp at hla) hx
      · exact hni _ _ _ (by intro hla; simp at hla) hx
  · rw [if_neg ht] at h
    injection h with h
    subst h
    intro hmem
    simp only [List.mem_append] at hmem
    rcases hmem with (((hx | hx) | hx) | hx) | (hx | hx) | hx
    · exact hni _ _ _ (by intro hla; simp at hla) hx
    · exact hni _ _ _ (by intro hla; simp at hla) hx
    · exact hni _ _ _ (by intro hla; simp at hla) hx
    · exact hni _ _ _ (by intro hla; simp at hla) hx
    · exact hni _ _ _ (by intro hla; simp at hla) hx
    · exact hni _ _ _ (by intro hla; simp at hla) hx
    · exact hni _ _ _ (by intro hla; simp at hla) hx

/-- **C9.** In a completed Step 4 lookup, the `Amount Match` annotation
appears among the result items if and only if a (non-empty, JS-truthy)
`expectedAmount` parameter was supplied and its `BigInt` value equals the
amount decoded from the matching Transfer log of the fetched receipt —
exact big-integer equality, not numeric approximation. -/
theorem finalEvm_amountMatch_iff :
    ∀ rt params apiKey resp receiptOracle ci txs evmTx iso,
      jsTruthy params.destChain = true → jsTruthy params.destinationEvmAddress = true →
      getChainInfo (canonicalizeChain (params.destChain.getD "")) = some ci →
      jsTruthy apiKey = true →
      resp.result = .arr txs →
      selectEvmTx txs = some evmTx →
      rt.epochIso evmTx.timeStamp = some iso →
      ∃ p, finalEvmTxHandler rt params apiKey (some resp) receiptOracle = .success p ∧
        (amountMatchItem ∈ p.items ↔
          ∃ e amt, params.expectedAmount = some e ∧ e ≠ "" ∧
            jsBigIntOfString e = some amt ∧
            decodedTransferAmount (params.destinationEvmAddress.getD "")
              (receiptLogsOf receiptOracle evmTx) = some amt) := by
  intro rt params apiKey resp receiptOracle ci txs evmTx iso h1 h2 hci hkey hres hsel hiso
  have hred : finalEvmTxHandler rt params apiKey (some resp) receiptOracle =
      finalEvmFound rt ci params.expectedAmount (params.destinationEvmAddress.getD "")
        evmTx receiptOracle := by
    unfold finalEvmTxHandler
    simp only [h1, h2, Bool.and_self, Bool.and_true, Bool.true_and, Bool.not_true,
      Bool.false_eq_true, if_false, hci, hkey, hres]
    simp only [EtherscanResult.isArr, Bool.not_true, Bool.and_false, Bool.false_eq_true,
      if_false, EtherscanResult.asArr]
    rw [hsel]
  obtain ⟨txItems, hitems⟩ : ∃ l, finalEvmTxItems rt ci evmTx = .ok l := by
    unfold finalEvmTxItems
    by_cases ht : jsTruthy evmTx.timeStamp = true
    · rw [if_pos ht, hiso]
      exact ⟨_, rfl⟩
    · rw [if_neg ht]
      exact ⟨_, rfl⟩
  have hnm := amountMatch_not_mem_txItems rt ci evmTx txItems hitems
  rw [hred]
  unfold finalEvmFound
  rw [hitems]
  simp only [hiso]
  refine ⟨_, rfl, ?_⟩
  simp only [List.mem_append]
  cases ho : (receiptOracle (jsStringOpt evmTx.hash)).bind (fun r => r.result) with
  | none =>
    have hrl : receiptLogsOf receiptOracle evmTx = [] := by
      unfold receiptLogsOf
      rw [ho]
    rw [hrl]
    simp [hnm, decodedTransferAmount]
  | some rec =>
    cases hl : rec.logs with
    | none =>
      have hrl : receiptLogsOf receiptOracle evmTx = [] := by
        unfold receiptLogsOf
        rw [ho]
        simp [hl]
      rw [hrl]
      simp [hl, hnm, decodedTransferAmount]
    | some logs =>
      have hrl : receiptLogsOf receiptOracle evmTx = logs := by
        unfold receiptLogsOf
        rw [ho]
        simp [hl]
      rw [hrl]
      simp only [hl]
      rw [scanReceiptLogs_amountMatch]
      simp [hnm]

/-- Witness for C9 at a concrete scenario: one `execute*` transaction, a
receipt whose Transfer log pays `0x3e8` (= 1000) to the target address, and
`expectedAmount = "1000"`. -/
theorem finalEvm_amountMatch_iff_witness :
    ∃ p, finalEvmTxHandler rtIsoDemo evmDemoParamsExp (some "KEY")
        (some ⟨some "1", some "OK", .arr [evmDemoTx]⟩) evmDemoReceiptOracle =
        .success p ∧
      (amountMatchItem ∈ p.items ↔
        ∃ e amt, evmDemoParamsExp.expectedAmount = some e ∧ e ≠ "" ∧
          jsBigIntOfString e = some amt ∧
          decodedTransferAmount (evmDemoParamsExp.destinationEvmAddress.getD "")
            (receiptLogsOf evmDemoReceiptOracle evmDemoTx) = some amt) :=
  finalEvm_amountMatch_iff rtIsoDemo evmDemoParamsExp (some "KEY")
    ⟨some "1", some "OK", .arr [evmDemoTx]⟩ evmDemoReceiptOracle avalancheInfo
    [evmDemoTx] evmDemoTx "1970-01-01T00:00:00.000Z"
    (by decide) (by decide) (by decide) (by decide) (by decide)
    (by
      unfold selectEvmTx
      rw [show [evmDemoTx].filter isExecuteTx = [evmDemoTx] from by decide,
        List.mergeSort_singleton]
      rfl)
    rfl

/-! ## Claim C1 -/

theorem getChainInfo_factory_ne_nil {chain : String} {ci : ChainInfo}
    (h : getChainInfo chain = some ci) : ci.factoryContracts ≠ [] := by
  unfold getChainInfo EVM_CHAIN_INFO at h
  repeat' split at h
  all_goals simp_all
  all_goals (rw [← h]; simp)

/-- **C1 counterexample.** With every attempt failing, the shared client
returns `null` — the upstream message is logged, not returned — and Step 3
then reports a `found=false` success result, not a step-level error carrying
the upstream message. -/
theorem upstreamFailure_counterexample :
    makeRequest (fun _ => (.error "HTTP error! status: 500 - Internal Server Error" :
      Except String (MintscanPage NobleTx))) 3 = none ∧
    cctpNobleTxHandler rtTrivial cctpDemoParams none =
      .success ⟨"CCTP on Noble", false, none, none, none, none, [],
        some "No matching CCTP burn transactions found"⟩ :=
  ⟨by decide, by decide⟩

/-- **C1 (amended).** When the outbound request fails on every attempt, the
shared client returns `null` and discards the upstream message; Steps 1–3
then return `found=false` success results, and only Step 4's
transaction-list fetch returns a step-level error result (`Etherscan API
request failed`), without the upstream message. -/
theorem upstreamFailure_amended :
    (∀ (α : Type) (outcomes : Nat → Except String α) (retries : Nat),
      (∀ i, i < retries → ∃ m, outcomes i = .error m) →
      makeRequest outcomes retries = none) ∧
    (∀ rt params ci,
      jsTruthy params.destChain = true → jsTruthy params.agoricAddress = true →
      getChainInfo (canonicalizeChain (params.destChain.getD "")) = some ci →
      axelarGmpTxHandler rt params (fun _ => none) =
        .success ⟨some "step1", "Axelar GMP (make account)", false,
          some "No GMP transactions found", none, []⟩) ∧
    (∀ parse nobleOracle params,
      jsTruthy params.agoricAddress = true → jsTruthy params.nobleAddress = true →
      agoricFundingTxHandler parse nobleOracle params none =
        .success ⟨"Funding of Noble ICA + IBC ACK", false, [],
          some ("No relevant IBC acknowledgment transactions found in the last " ++
            toString (0 : Nat) ++ " transactions (Mintscan limit: 20)")⟩) ∧
    (∀ rt params ci,
      jsTruthy params.nobleAddress = true → jsTruthy params.destChain = true →
      jsTruthy params.destinationEvmAddress = true →
      getChainInfo (canonicalizeChain (params.destChain.getD "")) = some ci →
      cctpNobleTxHandler rt params none =
        .success ⟨"CCTP on Noble", false, none, none, none, none, [],
          some "No matching CCTP burn transactions found"⟩) ∧
    (∀ rt params apiKey receiptOracle ci,
      jsTruthy params.destChain = true → jsTruthy params.destinationEvmAddress = true →
      getChainInfo (canonicalizeChain (params.destChain.getD "")) = some ci →
      jsTruthy apiKey = true →
      finalEvmTxHandler rt params apiKey none receiptOracle =
        .error "Etherscan API request failed") := by
  refine ⟨?_, ?_, ?_, ?_, ?_⟩
  · intro α outcomes retries h
    unfold makeRequest
    rw [List.findSome?_eq_none_iff]
    intro i hi
    obtain ⟨m, hm⟩ := h i (List.mem_range.mp hi)
    rw [hm]
  · intro rt params ci h1 h2 hci
    unfold axelarGmpTxHandler
    simp only [h1, h2, Bool.and_self, Bool.and_true, Bool.true_and, Bool.not_true,
      Bool.false_eq_true, if_false, hci]
    rw [if_neg (by simpa using getChainInfo_factory_ne_nil hci)]
    rw [probeFactories_all_empty (fun _ => none) params.size (params.agoricAddress.getD "")
      (canonicalizeChain (params.destChain.getD "")) ci.factoryContracts (fun g _ => rfl)]
  · intro parse nobleOracle params h1 h2
    unfold agoricFundingTxHandler
    simp only [h1, h2, Bool.and_self, Bool.and_true, Bool.true_and, Bool.not_true,
      Bool.false_eq_true, if_false]
    rw [show pageTxs (none : Option (MintscanPage AgoricTx)) = [] from rfl]
    rw [scanFundingTxs_no_match _ _ _ (by simp)]
    rfl
  · intro rt params ci h1 h2 h3 hci
    unfold cctpNobleTxHandler
    simp only [h1, h2, h3, Bool.and_self, Bool.and_true, Bool.true_and, Bool.not_true,
      Bool.false_eq_true, if_false, hci]
    rw [show pageTxs (none : Option (MintscanPage NobleTx)) = [] from rfl]
    rfl
  · intro rt params apiKey receiptOracle ci h1 h2 hci hkey
    unfold finalEvmTxHandler
    simp only [h1, h2, Bool.and_self, Bool.and_true, Bool.true_and, Bool.not_true,
      Bool.false_eq_true, if_false, hci, hkey]

/-- Witness for C1 (amended) at concrete inputs with every request failing. -/
theorem upstreamFailure_amended_witness :
    makeRequest (fun _ => (.error "boom" : Except String Nat)) 3 = none ∧
    axelarGmpTxHandler rtTrivial ⟨some "avalanche", some "agoric1demo", 1⟩ (fun _ => none) =
      .success ⟨some "step1", "Axelar GMP (make account)", false,
        some "No GMP transactions found", none, []⟩ ∧
    agoricFundingTxHandler fundingDemoParse (fun _ _ => none)
      ⟨some "agoric1demo", some "noble1abc"⟩ none =
      .success ⟨"Funding of Noble ICA + IBC ACK", false, [],
        some ("No relevant IBC acknowledgment transactions found in the last " ++
          toString (0 : Nat) ++ " transactions (Mintscan limit: 20)")⟩ ∧
    finalEvmTxHandler rtTrivial evmDemoParams (some "KEY") none (fun _ => none) =
      .error "Etherscan API request failed" :=
  ⟨upstreamFailure_amended.1 Nat (fun _ => .error "boom") 3 (fun i _ => ⟨"boom", rfl⟩),
   upstreamFailure_amended.2.1 rtTrivial ⟨some "avalanche", some "agoric1demo", 1⟩
     avalancheInfo (by decide) (by decide) (by decide),
   upstreamFailure_amended.2.2.1 fundingDemoParse (fun _ _ => none)
     ⟨some "agoric1demo", some "noble1abc"⟩ (by decide) (by decide),
   upstreamFailure_amended.2.2.2.2 rtTrivial evmDemoParams (some "KEY") (fun _ => none)
     avalancheInfo (by decide) (by decide) (by decide) (by decide)⟩

/-! ## Claim C2 -/

theorem scanFundingTxs_mem {parse : String → Option PacketData} {noble : String}
    {l : List AgoricTx} {tx : AgoricTx}
    (h : (scanFundingTxs parse noble l).2 = some tx) : tx ∈ l := by
  induction l with
  | nil => simp [scanFundingTxs] at h
  | cons t ts ih =>
    by_cases hc : (extractReceiverFromLogs parse (t.logs.getD []) == some noble) = true
    · rw [show scanFundingTxs parse noble (t :: ts) = ([t], some t) from by
        simp [scanFundingTxs, hc]] at h
      simp only [Option.some.injEq] at h
      simp [h]
    · have hstep : (scanFundingTxs parse noble (t :: ts)).2 =
          (scanFundingTxs parse noble ts).2 := by
        simp [scanFundingTxs, hc]
      rw [hstep] at h
      exact List.mem_cons_of_mem t (ih h)

theorem selectEvmTx_mem {txs : List EvmTx} {evmTx : EvmTx}
    (h : selectEvmTx txs = some evmTx) : evmTx ∈ txs := by
  unfold selectEvmTx at h
  have h1 : evmTx ∈ (txs.filter isExecuteTx).mergeSort timeDescLe :=
    List.mem_of_mem_head? (by rw [h]; rfl)
  exact List.mem_of_mem_filter (List.mem_mergeSort.mp h1)

/-- **C2 counterexample.** Step 1 can report `found=true` with no transaction
hash populated anywhere in the result: a non-empty GMP response whose record
has no `call` and no `approved` data yields `found=true` with an empty items
list and a transaction whose id is `""` and whose hash fields are all
absent. -/
theorem traceResult_txHash_counterexample :
    axelarGmpTxHandler rtTrivial ⟨some "avalanche", some "agoric1demo", 1⟩
        axelarEmptyRecordOracle =
      .success ⟨none, "Axelar GMP (make account)", true, none,
        some ⟨"", none, none, none, none, none, none⟩, []⟩ := by decide

/-- **C2 (amended).** For Steps 2–4 the invariant holds in the form the code
maintains: a `found=true` result always carries the string-coerced hash of a
transaction taken from the provider page — Step 3 and Step 4 in the `txHash`
field, Step 2 as the leading `Agoric Tx` item — so it is populated and
non-empty whenever the provider supplies a (non-empty) `txhash`. Step 1
violates the invariant: it can report `found=true` with no hash populated at
all when the GMP record lacks both transaction hashes (see the
counterexample). -/
theorem traceResult_txHash_amended :
    (∀ rt params response p,
      cctpNobleTxHandler rt params response = .success p → p.found = true →
      ∃ tx ∈ pageTxs response, p.txHash = some (jsStringOpt tx.txhash)) ∧
    (∀ parse nobleOracle params response p,
      agoricFundingTxHandler parse nobleOracle params response = .success p →
      p.found = true →
      ∃ tx ∈ pageTxs response, p.items.head? = some ⟨"Agoric Tx", tx.txhash,
        some ("https://www.mintscan.io/agoric/txs/" ++ jsStringOpt tx.txhash)⟩) ∧
    (∀ rt params apiKey response receiptOracle p,
      finalEvmTxHandler rt params apiKey response receiptOracle = .success p →
      p.found = true →
      ∃ resp evmTx, response = some resp ∧ evmTx ∈ resp.result.asArr ∧
        p.txHash = some (jsStringOpt evmTx.hash)) := by
  refine ⟨?_, ?_, ?_⟩
  · intro rt params response p hp hfound
    unfold cctpNobleTxHandler at hp
    by_cases hg : (!(jsTruthy params.nobleAddress && jsTruthy params.destChain &&
        jsTruthy params.destinationEvmAddress)) = true
    · rw [if_pos hg] at hp
      exact absurd hp (by simp)
    · rw [if_neg hg] at hp
      dsimp only at hp
      cases hci : getChainInfo (canonicalizeChain (params.destChain.getD "")) with
      | none =>
        rw [hci] at hp
        exact absurd hp (by simp)
      | some ci =>
        rw [hci] at hp
        dsimp only at hp
        cases hfind : (pageTxs response).find?
            (cctpTxMatches ci.domain (params.destinationEvmAddress.getD "")) with
        | none =>
          rw [hfind] at hp
          dsimp only at hp
          injection hp with hp
          rw [← hp] at hfound
          simp at hfound
        | some tx =>
          rw [hfind] at hp
          dsimp only at hp
          refine ⟨tx, List.mem_of_find?_eq_some hfind, ?_⟩
          unfold cctpNobleFound at hp
          dsimp only at hp
          cases hiso : rt.dateIso tx.timestamp with
          | none =>
            rw [hiso] at hp
            exact absurd hp (by simp)
          | some iso =>
            rw [hiso] at hp
            dsimp only at hp
            injection hp with hp
            rw [← hp]
  · intro parse nobleOracle params response p hp hfound
    unfold agoricFundingTxHandler at hp
    by_cases hg : (!(jsTruthy params.agoricAddress && jsTruthy params.nobleAddress)) = true
    · rw [if_pos hg] at hp
      exact absurd hp (by simp)
    · rw [if_neg hg] at hp
      dsimp only at hp
      cases hscan : (scanFundingTxs parse (params.nobleAddress.getD "")
          (pageTxs response)).2 with
      | none =>
        rw [hscan] at hp
        injection hp with hp
        rw [← hp] at hfound
        simp at hfound
      | some tx =>
        rw [hscan] at hp
        refine ⟨tx, scanFundingTxs_mem hscan, ?_⟩
        injection hp with hp
        rw [← hp]
        rfl
  · intro rt params apiKey response receiptOracle p hp hfound
    unfold finalEvmTxHandler at hp
    by_cases hg : (!(jsTruthy params.destChain && jsTruthy params.destinationEvmAddress)) = true
    · rw [if_pos hg] at hp
      exact absurd hp (by simp)
    · rw [if_neg hg] at hp
      dsimp only at hp
      cases hci : getChainInfo (canonicalizeChain (params.destChain.getD "")) with
      | none =>
        rw [hci] at hp
        exact absurd hp (by simp)
      | some ci =>
        rw [hci] at hp
        dsimp only at hp
        by_cases hkey : (!jsTruthy apiKey) = true
        · rw [if_pos hkey] at hp
          exact absurd hp (by simp)
        · rw [if_neg hkey] at hp
          cases hresp : response with
          | none =>
            rw [hresp] at hp
            exact absurd hp (by simp)
          | some resp =>
            rw [hresp] at hp
            dsimp only at hp
            by_cases hst : (resp.status == some "0" && !resp.result.isArr) = true
            · rw [if_pos hst] at hp
              exact absurd hp (by simp)
            · rw [if_neg hst] at hp
              cases hsel : selectEvmTx resp.result.asArr with
              | none =>
                rw [hsel] at hp
                dsimp only at hp
                injection hp with hp
                rw [← hp] at hfound
                simp at hfound
              | some evmTx =>
                rw [hsel] at hp
                dsimp only at hp
                refine ⟨resp, evmTx, rfl, selectEvmTx_mem hsel, ?_⟩
                unfold finalEvmFound at hp
                dsimp only at hp
                cases hitems : finalEvmTxItems rt ci evmTx with
                | error e =>
                  rw [hitems] at hp
                  exact absurd hp (by simp)
                | ok txItems =>
                  rw [hitems] at hp
                  dsimp only at hp
                  cases hiso : rt.epochIso evmTx.timeStamp with
                  | none =>
                    rw [hiso] at hp
                    exact absurd hp (by simp)
                  | some iso =>
                    rw [hiso] at hp
                    dsimp only at hp
                    injection hp with hp
                    rw [← hp]

/-- Witness for C2 (amended) at the concrete Step 3 found-`true` scenario. -/
theorem traceResult_txHash_amended_witness :
    ∃ tx ∈ pageTxs (some (⟨some [cctpDemoTx], none⟩ : MintscanPage NobleTx)),
      cctpDemoPayload.txHash = some (jsStringOpt tx.txhash) :=
  traceResult_txHash_amended.1 rtIsoDemo cctpDemoParams (some ⟨some [cctpDemoTx], none⟩)
    cctpDemoPayload (by decide) (by decide)

